import Mathlib

/-!
Shallow embedding of the uwp-plugins manifest validation and index build
pipeline.

Embedded sources:
* scripts/validate-plugins.js  — namespace ValidateScript (the current
  validation entry point: validatePlugin and main).
* the second validate-plugins variant (src/unnamed/part_001) — namespace
  ValidateScriptB (older required-field set, strict-mode extra warnings,
  exits non-zero on any error).
* the index builder build-plugin-index script (src/unnamed/part_000) —
  namespace BuildIndexScript (readPluginManifest outcomes, validateManifest,
  buildIndex).

Modelling conventions:
* Parsed JSON manifests are association lists of String times JVal; field
  access returns Option JVal, with none standing for a JS undefined lookup.
* JS truthiness is the function truthyV / truthy below (empty string, 0,
  false and null are falsy; arrays and objects are always truthy).
* The JS String(x) coercion used by regex tests, template literals and
  Array.prototype.join is the function jsToString.
* The x.length property access is jsLen, returning none where a JS value
  has no length property (so undefined comparisons are false).
* Filesystem state is a list of paths that exist, relative to the plugin
  directory, with path.join(dir, a) modelled by the relative path a and
  path.join(dir, "assets", s) by "assets/" ++ s.  Path normalisation is
  not modelled.
* Node path.join throws a TypeError on non-string arguments; runs that
  would crash this way are outside the model, and theorems about whole-run
  behaviour carry an explicit pathSafe / dirSafe hypothesis restricting to
  manifests whose entry_point and frontend_scripts entries are strings.
* String lengths count characters; for the ASCII manifests at issue this
  agrees with the UTF-16 code unit count used by the JS length property.
-/

/-- A JSON value as produced by JSON.parse; numbers are modelled as
integers, which suffices for the validation rules at issue. -/
inductive JVal where
  | jnull : JVal
  | jbool : Bool → JVal
  | jnum : Int → JVal
  | jstr : String → JVal
  | jarr : List JVal → JVal
  | jobj : List (String × JVal) → JVal

/-- A parsed manifest object: an association list of fields. -/
def Manifest : Type := List (String × JVal)

/-- Field lookup on a manifest object, none for an absent key. -/
def getField (m : Manifest) (k : String) : Option JVal :=
  match m with
  | [] => none
  | (k2, v) :: rest => if k2 = k then some v else getField rest k

/-- Remove a field from a manifest object. -/
def eraseField (m : Manifest) (k : String) : Manifest :=
  match m with
  | [] => []
  | (k2, v) :: rest => if k2 = k then eraseField rest k else (k2, v) :: eraseField rest k

/-- JS truthiness of a value. -/
def truthyV : JVal → Bool
  | .jnull => false
  | .jbool b => b
  | .jnum n => n != 0
  | .jstr s => s != ""
  | .jarr _ => true
  | .jobj _ => true

/-- JS truthiness of a property lookup, undefined (none) being falsy. -/
def truthy (v : Option JVal) : Bool :=
  match v with
  | none => false
  | some x => truthyV x

mutual

/-- The JS String(x) coercion. -/
def jsToString : JVal → String
  | .jnull => "null"
  | .jbool true => "true"
  | .jbool false => "false"
  | .jnum n => toString n
  | .jstr s => s
  | .jarr xs => jsJoinElems xs
  | .jobj _ => "[object Object]"

/-- Array.prototype.toString, a comma join in which null elements render
as the empty string. -/
def jsJoinElems : List JVal → String
  | [] => ""
  | [x] => jsElemString x
  | x :: y :: rest => jsElemString x ++ "," ++ jsJoinElems (y :: rest)

/-- One array element under join: null becomes empty, the rest follow
String(x). -/
def jsElemString : JVal → String
  | .jnull => ""
  | .jbool true => "true"
  | .jbool false => "false"
  | .jnum n => toString n
  | .jstr s => s
  | .jarr xs => jsJoinElems xs
  | .jobj _ => "[object Object]"

end

/-- String coercion of a field lookup; the absent case only appears under
guards that already require truthiness. -/
def fieldStr (m : Manifest) (k : String) : String :=
  jsToString ((getField m k).getD .jnull)

/-- The JS x.length property: defined for strings and arrays, undefined
otherwise. -/
def jsLen : JVal → Option Nat
  | .jstr s => some s.length
  | .jarr xs => some xs.length
  | _ => none

/-- Comparison u < n where u may be JS undefined (none), in which case
the comparison is false. -/
def optLt (v : Option Nat) (n : Nat) : Bool :=
  match v with
  | none => false
  | some a => a < n

/-- Comparison u > n where u may be JS undefined (none), in which case
the comparison is false. -/
def optGt (v : Option Nat) (n : Nat) : Bool :=
  match v with
  | none => false
  | some a => n < a

/-- Does the value x === s hold for a string s, i.e. is x that exact
string? -/
def isStrEq (v : JVal) (s : String) : Bool :=
  match v with
  | .jstr t => t = s
  | _ => false

/-- Membership of a JS value in a list of string constants under the
includes (SameValueZero) semantics: only equal strings match. -/
def strListHas (l : List String) (v : JVal) : Bool :=
  match v with
  | .jstr s => l.contains s
  | _ => false

/-- One or more leading decimal digits; returns the remaining characters,
or none when no digit is present.  Models a greedy digit group of the
version regexes. -/
def digits1 : List Char → Option (List Char)
  | [] => none
  | c :: cs => if c.isDigit then some (cs.dropWhile Char.isDigit) else none

/-- Consume one expected character. -/
def expectChar (c : Char) : List Char → Option (List Char)
  | [] => none
  | d :: ds => if d = c then some ds else none

/-- Consume digits dot digits dot digits, the shared core of both version
regexes. -/
def semverCore (cs : List Char) : Option (List Char) :=
  match digits1 cs with
  | none => none
  | some cs1 =>
    match expectChar '.' cs1 with
    | none => none
    | some cs2 =>
      match digits1 cs2 with
      | none => none
      | some cs3 =>
        match expectChar '.' cs3 with
        | none => none
        | some cs4 => digits1 cs4

/-- Character class of the prerelease part of the strict version regex:
lowercase letters, digits and dots. -/
def isPreChar (c : Char) : Bool :=
  c.isLower || c.isDigit || c = '.'

/-- The anchored version regex of scripts/validate-plugins.js:
caret digits dot digits dot digits, an optional dash-prerelease group,
dollar. -/
def semverFullTest (s : String) : Bool :=
  match semverCore s.data with
  | none => false
  | some [] => true
  | some ('-' :: cs) => !cs.isEmpty && cs.all isPreChar
  | some _ => false

/-- The unanchored-at-the-end version regex of the index builder:
caret digits dot digits dot digits, any suffix allowed. -/
def semverPrefixTest (s : String) : Bool :=
  (semverCore s.data).isSome

/-- Character class of the id regex: lowercase letters, digits and
hyphens. -/
def isIdChar (c : Char) : Bool :=
  c.isLower || c.isDigit || c = '-'

/-- The id regex shared by all validators: caret, one or more id
characters, dollar; applied to the String coercion of the id value. -/
def idFormatTest (s : String) : Bool :=
  !s.isEmpty && s.data.all isIdChar

/-- Does a name start with a dot (the hidden-directory filter of the
scanners)? -/
def startsDot (s : String) : Bool :=
  match s.data with
  | [] => false
  | c :: _ => c = '.'

/-- Is one character list a prefix of another (used for the HTTPS check
of the strict profile)? -/
def listPre : List Char → List Char → Bool
  | [], _ => true
  | _ :: _, [] => false
  | a :: as, b :: bs => a = b && listPre as bs

/-- The outcome of the Manifest Reader for one plugin directory: no
manifest file, a file that is not valid JSON (with the parser message),
or a parsed manifest object. -/
inductive ReadResult where
  | missing : ReadResult
  | badJson : String → ReadResult
  | ok : Manifest → ReadResult

/-- One candidate entry of the plugins directory, as seen by the
scanners: its name, whether it is a directory, the Reader outcome for it,
the set of files existing inside it (paths relative to the plugin
directory) and the manifest file modification timestamp. -/
structure PluginDir where
  name : String
  isDir : Bool
  read : ReadResult
  files : List String
  mtime : String

/-- Safety of one manifest for the scripts validator: path.join would not
throw, i.e. a truthy entry_point is a string and frontend_scripts, when an
array, holds only strings. -/
def pathSafe (m : Manifest) : Bool :=
  (match getField m "entry_point" with
   | none => true
   | some (.jstr _) => true
   | some v => !truthyV v) &&
  (match getField m "frontend_scripts" with
   | some (.jarr xs) => xs.all (fun x => match x with | .jstr _ => true | _ => false)
   | _ => true)

namespace ValidateScript

/-- The closed category list of scripts/validate-plugins.js (seven
entries, including fun). -/
def VALID_CATEGORIES : List String :=
  ["security", "integration", "monitoring", "management", "utilities", "appearance", "fun"]

/-- The recognised hook names of scripts/validate-plugins.js. -/
def VALID_HOOKS : List String :=
  ["on_user_connect", "on_user_disconnect", "on_user_nick_change", "on_user_quit",
   "on_channel_join", "on_channel_part", "on_channel_message", "on_channel_mode",
   "on_server_link", "on_server_split", "on_rehash", "on_oper_up",
   "on_ban_add", "on_ban_remove", "on_panel_startup", "on_api_request",
   "on_page_load", "OnStartup", "OnShutdown", "OnUserListRequest", "OnChannelListRequest"]

/-- Validation errors pushed by scripts/validate-plugins.js, one
constructor per push site, carrying the interpolated data of the message
(already String-coerced, as the template literal does). -/
inductive VErr where
  | missingManifest : VErr
  | invalidJson : String → VErr
  | missingField : String → VErr
  | idMismatch : String → String → VErr
  | invalidIdFormat : VErr
  | invalidIdLength : VErr
  | invalidVersion : VErr
  | invalidCategory : String → VErr
  | descTooShort : VErr
  | descTooLong : VErr
  | entryPointNotFound : String → VErr
  | scriptNotFound : String → VErr
  | tagsNotArray : VErr
deriving DecidableEq

/-- Warnings pushed by scripts/validate-plugins.js. -/
inductive VWarn where
  | unknownHook : String → VWarn
  | tooManyTags : VWarn
deriving DecidableEq

/-- The required field list of scripts/validate-plugins.js (entry_point
is optional for frontend-only plugins). -/
def requiredFields : List String :=
  ["id", "name", "version", "author", "description"]

/-- The required-field loop of validatePlugin: one missingField push per
falsy field, in list order, appended to the accumulated errors. -/
def reqAux (manifest : Manifest) (fields : List String) (errors : List VErr) : List VErr :=
  match fields with
  | [] => errors
  | f :: rest =>
    reqAux manifest rest
      (if !(truthy (getField manifest f)) then errors ++ [.missingField f] else errors)

/-- The frontend_scripts loop of validatePlugin: one scriptNotFound push
per script whose joined asset path does not exist. -/
def scriptsAux (files : List String) (scripts : List JVal) (errors : List VErr) : List VErr :=
  match scripts with
  | [] => errors
  | s :: rest =>
    scriptsAux files rest
      (if !(files.contains ("assets/" ++ jsToString s)) then
        errors ++ [.scriptNotFound ("assets/" ++ jsToString s)]
      else errors)

/-- The hooks loop of validatePlugin: one unknownHook warning push per
unrecognised hook value. -/
def hooksAux (hooks : List JVal) (warnings : List VWarn) : List VWarn :=
  match hooks with
  | [] => warnings
  | h :: rest =>
    hooksAux rest
      (if !(strListHas VALID_HOOKS h) then warnings ++ [.unknownHook (jsToString h)] else warnings)

/-- The id block of validatePlugin: directory match, format regex and
length bounds, each pushing onto the error accumulator. -/
def idStep (pluginId : String) (manifest : Manifest) (errors : List VErr) : List VErr :=
  if truthy (getField manifest "id") then
    let idv := (getField manifest "id").getD .jnull
    let errors :=
      if !(isStrEq idv pluginId) then
        errors ++ [.idMismatch (jsToString idv) pluginId]
      else errors
    let errors :=
      if !(idFormatTest (jsToString idv)) then errors ++ [.invalidIdFormat] else errors
    if optLt (jsLen idv) 2 || optGt (jsLen idv) 50 then
      errors ++ [.invalidIdLength]
    else errors
  else errors

/-- The version block of validatePlugin. -/
def versionStep (manifest : Manifest) (errors : List VErr) : List VErr :=
  if truthy (getField manifest "version") &&
      !(semverFullTest (fieldStr manifest "version")) then
    errors ++ [.invalidVersion]
  else errors

/-- The category block of validatePlugin. -/
def categoryStep (manifest : Manifest) (errors : List VErr) : List VErr :=
  if truthy (getField manifest "category") &&
      !(strListHas VALID_CATEGORIES ((getField manifest "category").getD .jnull)) then
    errors ++ [.invalidCategory (fieldStr manifest "category")]
  else errors

/-- The description length block of validatePlugin. -/
def descriptionStep (manifest : Manifest) (errors : List VErr) : List VErr :=
  if truthy (getField manifest "description") then
    let descv := (getField manifest "description").getD .jnull
    let errors := if optLt (jsLen descv) 10 then errors ++ [.descTooShort] else errors
    if optGt (jsLen descv) 500 then errors ++ [.descTooLong] else errors
  else errors

/-- The entry point existence block of validatePlugin. -/
def entryPointStep (manifest : Manifest) (files : List String) (errors : List VErr) :
    List VErr :=
  if truthy (getField manifest "entry_point") then
    if !(files.contains (fieldStr manifest "entry_point")) then
      errors ++ [.entryPointNotFound (fieldStr manifest "entry_point")]
    else errors
  else errors

/-- The frontend_scripts block of validatePlugin: runs only when the
field is a truthy array (arrays are always truthy). -/
def scriptsStep (manifest : Manifest) (files : List String) (errors : List VErr) :
    List VErr :=
  match getField manifest "frontend_scripts" with
  | some (.jarr scripts) => scriptsAux files scripts errors
  | _ => errors

/-- The hooks block of validatePlugin: runs only when the field is a
truthy array; pushes warnings. -/
def hooksStep (manifest : Manifest) (warnings : List VWarn) : List VWarn :=
  match getField manifest "hooks" with
  | some (.jarr hooks) => hooksAux hooks warnings
  | _ => warnings

/-- The tags block of validatePlugin: a truthy non-array is an error, an
array longer than ten a warning. -/
def tagsStep (manifest : Manifest) (errors : List VErr) (warnings : List VWarn) :
    List VErr × List VWarn :=
  match getField manifest "tags" with
  | some tagsv =>
    if truthyV tagsv then
      match tagsv with
      | .jarr tags =>
        (errors, if 10 < tags.length then warnings ++ [.tooManyTags] else warnings)
      | _ => (errors ++ [.tagsNotArray], warnings)
    else (errors, warnings)
  | none => (errors, warnings)

/-- The validatePlugin function of scripts/validate-plugins.js, with the
filesystem interactions summarised: the Reader outcome for plugin.json is
the read argument and existsSync is membership in files (paths relative
to the plugin directory).  Each step mirrors one push block of the
source, in source order. -/
def validatePlugin (pluginId : String) (read : ReadResult) (files : List String) :
    List VErr × List VWarn :=
  match read with
  | .missing => ([.missingManifest], [])
  | .badJson msg => ([.invalidJson msg], [])
  | .ok manifest =>
    let errors := reqAux manifest requiredFields []
    let errors := idStep pluginId manifest errors
    let errors := versionStep manifest errors
    let errors := categoryStep manifest errors
    let errors := descriptionStep manifest errors
    let errors := entryPointStep manifest files errors
    let errors := scriptsStep manifest files errors
    let warnings := hooksStep manifest []
    tagsStep manifest errors warnings

/-- The per-plugin loop of main, threading the validCount and hasErrors
accumulators of the source. -/
def mainLoop (plugins : List PluginDir) (validCount : Nat) (hasErrors : Bool) : Nat × Bool :=
  match plugins with
  | [] => (validCount, hasErrors)
  | d :: rest =>
    let r := validatePlugin d.name d.read d.files
    if r.1.isEmpty then mainLoop rest (validCount + 1) hasErrors
    else mainLoop rest validCount true

/-- The main function of scripts/validate-plugins.js, modelled for runs
in which the plugins directory exists; dirs is the readdirSync result and
the return value is the process exit status.  Note the exit(1) call is
guarded by hasErrors AND the strict flag. -/
def mainExit (strict : Bool) (dirs : List PluginDir) : Nat :=
  let plugins := dirs.filter (fun d => d.isDir && !(startsDot d.name))
  let st := mainLoop plugins 0 false
  if st.2 && strict then 1 else 0

/-- Does some considered plugin directory have at least one validation
error (the condition the spec says should drive the exit status)? -/
def anyPluginErrors (dirs : List PluginDir) : Bool :=
  (dirs.filter (fun d => d.isDir && !(startsDot d.name))).any
    (fun d => !(validatePlugin d.name d.read d.files).1.isEmpty)

/-- Does some considered plugin directory have at least one warning? -/
def anyPluginWarnings (dirs : List PluginDir) : Bool :=
  (dirs.filter (fun d => d.isDir && !(startsDot d.name))).any
    (fun d => !(validatePlugin d.name d.read d.files).2.isEmpty)

/-- Safety of one directory entry for whole-run theorems: its manifest,
when parsed, has string-valued path fields (see pathSafe). -/
def dirSafe (d : PluginDir) : Bool :=
  match d.read with
  | .ok m => pathSafe m
  | _ => true

end ValidateScript

namespace ValidateScriptB

/-- The closed category list of the part_001 validator variant (six
entries, no fun). -/
def VALID_CATEGORIES : List String :=
  ["security", "integration", "monitoring", "management", "utilities", "appearance"]

/-- The recognised hook names of the part_001 validator variant. -/
def VALID_HOOKS : List String :=
  ["on_user_connect", "on_user_disconnect", "on_user_nick_change", "on_user_quit",
   "on_channel_join", "on_channel_part", "on_channel_message", "on_channel_mode",
   "on_server_link", "on_server_split", "on_rehash", "on_oper_up",
   "on_ban_add", "on_ban_remove", "on_panel_startup", "on_api_request",
   "on_page_load"]

/-- Validation errors pushed by the part_001 validator, one constructor
per push site. -/
inductive VErr where
  | missingManifest : VErr
  | invalidJson : String → VErr
  | missingField : String → VErr
  | idMismatch : String → String → VErr
  | invalidIdFormat : VErr
  | invalidIdLength : VErr
  | invalidVersion : VErr
  | invalidCategory : String → VErr
  | descTooShort : VErr
  | descTooLong : VErr
  | entryPointNotFound : String → VErr
  | tagsNotArray : VErr
  | tooManyTags : VErr
deriving DecidableEq

/-- Warnings pushed by the part_001 validator, including the
strict-mode-only recommendations. -/
inductive VWarn where
  | unknownHook : String → VWarn
  | missingReadme : VWarn
  | missingLicense : VWarn
  | nonHttpsRepo : VWarn
deriving DecidableEq

/-- The required field list of the part_001 validator (eight fields,
category, license and entry_point included). -/
def requiredFields : List String :=
  ["id", "name", "version", "author", "description", "category", "license", "entry_point"]

/-- The required-field loop of the part_001 validator. -/
def reqAux (manifest : Manifest) (fields : List String) (errors : List VErr) : List VErr :=
  match fields with
  | [] => errors
  | f :: rest =>
    reqAux manifest rest
      (if !(truthy (getField manifest f)) then errors ++ [.missingField f] else errors)

/-- The hooks loop of the part_001 validator. -/
def hooksAux (hooks : List JVal) (warnings : List VWarn) : List VWarn :=
  match hooks with
  | [] => warnings
  | h :: rest =>
    hooksAux rest
      (if !(strListHas VALID_HOOKS h) then warnings ++ [.unknownHook (jsToString h)] else warnings)

/-- The id block of the part_001 validator (length bounds three to
fifty). -/
def idStep (pluginId : String) (manifest : Manifest) (errors : List VErr) : List VErr :=
  if truthy (getField manifest "id") then
    let idv := (getField manifest "id").getD .jnull
    let errors :=
      if !(isStrEq idv pluginId) then
        errors ++ [.idMismatch (jsToString idv) pluginId]
      else errors
    let errors :=
      if !(idFormatTest (jsToString idv)) then errors ++ [.invalidIdFormat] else errors
    if optLt (jsLen idv) 3 || optGt (jsLen idv) 50 then
      errors ++ [.invalidIdLength]
    else errors
  else errors

/-- The version block of the part_001 validator. -/
def versionStep (manifest : Manifest) (errors : List VErr) : List VErr :=
  if truthy (getField manifest "version") &&
      !(semverFullTest (fieldStr manifest "version")) then
    errors ++ [.invalidVersion]
  else errors

/-- The category block of the part_001 validator (six categories). -/
def categoryStep (manifest : Manifest) (errors : List VErr) : List VErr :=
  if truthy (getField manifest "category") &&
      !(strListHas VALID_CATEGORIES ((getField manifest "category").getD .jnull)) then
    errors ++ [.invalidCategory (fieldStr manifest "category")]
  else errors

/-- The description length block of the part_001 validator (maximum two
hundred). -/
def descriptionStep (manifest : Manifest) (errors : List VErr) : List VErr :=
  if truthy (getField manifest "description") then
    let descv := (getField manifest "description").getD .jnull
    let errors := if optLt (jsLen descv) 10 then errors ++ [.descTooShort] else errors
    if optGt (jsLen descv) 200 then errors ++ [.descTooLong] else errors
  else errors

/-- The entry point existence block of the part_001 validator. -/
def entryPointStep (manifest : Manifest) (files : List String) (errors : List VErr) :
    List VErr :=
  if truthy (getField manifest "entry_point") then
    if !(files.contains (fieldStr manifest "entry_point")) then
      errors ++ [.entryPointNotFound (fieldStr manifest "entry_point")]
    else errors
  else errors

/-- The hooks block of the part_001 validator. -/
def hooksStep (manifest : Manifest) (warnings : List VWarn) : List VWarn :=
  match getField manifest "hooks" with
  | some (.jarr hooks) => hooksAux hooks warnings
  | _ => warnings

/-- The tags block of the part_001 validator: both a truthy non-array
and an array longer than ten are errors here. -/
def tagsStep (manifest : Manifest) (errors : List VErr) : List VErr :=
  match getField manifest "tags" with
  | some tagsv =>
    if truthyV tagsv then
      match tagsv with
      | .jarr tags => if 10 < tags.length then errors ++ [.tooManyTags] else errors
      | _ => errors ++ [.tagsNotArray]
    else errors
  | none => errors

/-- The strict-mode-only block of the part_001 validator: README,
LICENSE and HTTPS repository recommendations, warnings only. -/
def strictStep (strict : Bool) (manifest : Manifest) (files : List String)
    (warnings : List VWarn) : List VWarn :=
  if strict then
    let warnings :=
      if !(files.contains "README.md") then warnings ++ [.missingReadme] else warnings
    let warnings :=
      if !(files.contains "LICENSE") then warnings ++ [.missingLicense] else warnings
    match getField manifest "repository" with
    | some (.jstr r) =>
      if r != "" && !(listPre "https://".data r.data) then
        warnings ++ [.nonHttpsRepo]
      else warnings
    | _ => warnings
  else warnings

/-- The validatePlugin function of the part_001 variant; the strict flag
is the global isStrict of the script.  A truthy non-string repository
under strict would make the real script throw at startsWith and is
outside the model (see the header notes).  Each step mirrors one push
block of the source, in source order. -/
def validatePlugin (strict : Bool) (pluginId : String) (read : ReadResult)
    (files : List String) : List VErr × List VWarn :=
  match read with
  | .missing => ([.missingManifest], [])
  | .badJson msg => ([.invalidJson msg], [])
  | .ok manifest =>
    let errors := reqAux manifest requiredFields []
    let errors := idStep pluginId manifest errors
    let errors := versionStep manifest errors
    let errors := categoryStep manifest errors
    let errors := descriptionStep manifest errors
    let errors := entryPointStep manifest files errors
    let warnings := hooksStep manifest []
    let errors := tagsStep manifest errors
    let warnings := strictStep strict manifest files warnings
    (errors, warnings)

/-- The per-entry loop of the part_001 main, threading the hasErrors,
totalPlugins and validPlugins accumulators of the source. -/
def mainLoop (strict : Bool) (dirs : List PluginDir) (hasErrors : Bool)
    (totalPlugins validPlugins : Nat) : Bool × Nat × Nat :=
  match dirs with
  | [] => (hasErrors, totalPlugins, validPlugins)
  | d :: rest =>
    if d.isDir && !(startsDot d.name) then
      let r := validatePlugin strict d.name d.read d.files
      if !r.1.isEmpty then
        mainLoop strict rest true (totalPlugins + 1) validPlugins
      else
        mainLoop strict rest hasErrors (totalPlugins + 1) (validPlugins + 1)
    else mainLoop strict rest hasErrors totalPlugins validPlugins

/-- The main function of the part_001 variant, for runs in which the
plugins directory exists; returns the process exit status.  Any plugin
with errors leads to exit status 1, independently of the strict flag. -/
def mainExit (strict : Bool) (dirs : List PluginDir) : Nat :=
  let st := mainLoop strict dirs false 0 0
  if st.1 then 1 else 0

/-- Does some considered plugin directory have at least one validation
error under the part_001 validator? -/
def anyPluginErrors (strict : Bool) (dirs : List PluginDir) : Bool :=
  (dirs.filter (fun d => d.isDir && !(startsDot d.name))).any
    (fun d => !(validatePlugin strict d.name d.read d.files).1.isEmpty)

end ValidateScriptB

/-- Lexicographic comparison of lists over a linear order, the base of
the localeCompare model. -/
def cmpList {α : Type} [LinearOrder α] : List α → List α → Ordering
  | [], [] => .eq
  | [], _ :: _ => .lt
  | _ :: _, [] => .gt
  | a :: as, b :: bs =>
    if a < b then .lt
    else if b < a then .gt
    else cmpList as bs

/-- The lowercase primary collation key of a string. -/
def lowerKey (s : String) : List Char :=
  s.data.map Char.toLower

/-- The case tiebreak key of a string: uppercase marked true, so that
lowercase collates first, as in the ICU root collation used by the JS
localeCompare default. -/
def caseKey (s : String) : List Bool :=
  s.data.map Char.isUpper

/-- Model of a.localeCompare(b) for ASCII strings under the default
locale: base letters compare first (case-insensitively), identical base
sequences are tiebroken by case with lowercase first. -/
def localeCmp (a b : String) : Ordering :=
  match cmpList (lowerKey a) (lowerKey b) with
  | .eq => cmpList (caseKey a) (caseKey b)
  | o => o

/-- The non-strict comparison induced by localeCmp: the comparator is
not positive. -/
def localeLe (a b : String) : Prop :=
  localeCmp a b ≠ .gt

instance : DecidableRel localeLe := fun a b =>
  inferInstanceAs (Decidable (localeCmp a b ≠ .gt))

namespace BuildIndexScript

/-- The closed category list of the index builder (seven entries,
including fun). -/
def VALID_CATEGORIES : List String :=
  ["security", "integration", "monitoring", "management", "utilities", "appearance", "fun"]

/-- Validation errors pushed by the validateManifest function of the
index builder, one constructor per push site, in source order of the
push statements; payloads carry the String-coerced interpolations of the
messages. -/
inductive VErr where
  | missingField : String → VErr
  | idMismatch : String → String → VErr
  | invalidCategory : String → VErr
  | invalidVersion : String → VErr
  | invalidIdFormat : String → VErr
deriving DecidableEq

/-- The required field list of the index builder validator. -/
def requiredFields : List String :=
  ["id", "name", "version", "author", "description"]

/-- The required-field loop of the index builder validator. -/
def reqAux (manifest : Manifest) (fields : List String) (errors : List VErr) : List VErr :=
  match fields with
  | [] => errors
  | f :: rest =>
    reqAux manifest rest
      (if !(truthy (getField manifest f)) then errors ++ [.missingField f] else errors)

/-- The id-directory match block of the builder validator. -/
def idMatchStep (manifest : Manifest) (pluginId : String) (errors : List VErr) : List VErr :=
  if truthy (getField manifest "id") &&
      !(isStrEq ((getField manifest "id").getD .jnull) pluginId) then
    errors ++ [.idMismatch (fieldStr manifest "id") pluginId]
  else errors

/-- The category membership block of the builder validator. -/
def categoryStep (manifest : Manifest) (errors : List VErr) : List VErr :=
  if truthy (getField manifest "category") &&
      !(strListHas VALID_CATEGORIES ((getField manifest "category").getD .jnull)) then
    errors ++ [.invalidCategory (fieldStr manifest "category")]
  else errors

/-- The version prefix block of the builder validator (only the start of
the string is matched). -/
def versionStep (manifest : Manifest) (errors : List VErr) : List VErr :=
  if truthy (getField manifest "version") &&
      !(semverPrefixTest (fieldStr manifest "version")) then
    errors ++ [.invalidVersion (fieldStr manifest "version")]
  else errors

/-- The id format block of the builder validator. -/
def idFormatStep (manifest : Manifest) (errors : List VErr) : List VErr :=
  if truthy (getField manifest "id") &&
      !(idFormatTest (fieldStr manifest "id")) then
    errors ++ [.invalidIdFormat (fieldStr manifest "id")]
  else errors

/-- The validateManifest function of the index builder.  Rule order in
the source: required fields, id-directory match, category membership,
version prefix pattern, id format. -/
def validateManifest (manifest : Manifest) (pluginId : String) : List VErr :=
  let errors := reqAux manifest requiredFields []
  let errors := idMatchStep manifest pluginId errors
  let errors := categoryStep manifest errors
  let errors := versionStep manifest errors
  idFormatStep manifest errors

/-- The JS a || b fallback on an optional field: the field value when
truthy, the default otherwise. -/
def jsOr (v : Option JVal) (d : JVal) : JVal :=
  match v with
  | some x => if truthyV x then x else d
  | none => d

/-- One entry of the generated plugins.json index, as assembled by the
buildIndex loop. -/
structure IndexEntry where
  id : JVal
  name : JVal
  version : JVal
  author : JVal
  description : JVal
  category : JVal
  license : JVal
  tags : JVal
  repository : JVal
  homepage : JVal
  min_panel_version : JVal
  hooks : JVal
  nav_items : JVal
  dashboard_cards : JVal
  frontend_scripts : JVal
  settings_schema : JVal
  has_readme : Bool
  has_icon : Bool
  last_updated : String
  downloads : Int
  rating : Int
  rating_count : Int

/-- The pluginEntry object literal of the buildIndex loop: verbatim
required fields, fallback defaults for optional fields, filesystem facts
and zeroed runtime counters. -/
def mkEntry (d : PluginDir) (manifest : Manifest) : IndexEntry :=
  { id := (getField manifest "id").getD .jnull
    name := (getField manifest "name").getD .jnull
    version := (getField manifest "version").getD .jnull
    author := (getField manifest "author").getD .jnull
    description := (getField manifest "description").getD .jnull
    category := jsOr (getField manifest "category") (.jstr "utilities")
    license := jsOr (getField manifest "license") (.jstr "MIT")
    tags := jsOr (getField manifest "tags") (.jarr [])
    repository := jsOr (getField manifest "repository")
      (jsOr (getField manifest "homepage") .jnull)
    homepage := jsOr (getField manifest "homepage") .jnull
    min_panel_version := jsOr (getField manifest "min_panel_version") (.jstr "2.0.0")
    hooks := jsOr (getField manifest "hooks") (.jarr [])
    nav_items := jsOr (getField manifest "nav_items") (.jarr [])
    dashboard_cards := jsOr (getField manifest "dashboard_cards") (.jarr [])
    frontend_scripts := jsOr (getField manifest "frontend_scripts") (.jarr [])
    settings_schema := jsOr (getField manifest "settings_schema") .jnull
    has_readme := d.files.contains "README.md"
    has_icon := d.files.contains "assets/icon.png"
    last_updated := d.mtime
    downloads := 0
    rating := 0
    rating_count := 0 }

/-- One record of the errors accumulator of buildIndex: the plugin
directory name with its validation errors. -/
structure ErrRecord where
  plugin : String
  errors : List VErr

/-- The accumulator form of the buildIndex scanning loop. -/
def scanAux (dirs : List PluginDir) (plugins : List IndexEntry) (errors : List ErrRecord) :
    List IndexEntry × List ErrRecord :=
  match dirs with
  | [] => (plugins, errors)
  | entry :: rest =>
    if !entry.isDir then scanAux rest plugins errors
    else if startsDot entry.name then scanAux rest plugins errors
    else
      match entry.read with
      | .missing => scanAux rest plugins errors
      | .badJson _ => scanAux rest plugins errors
      | .ok manifest =>
        let validationErrors := validateManifest manifest entry.name
        if validationErrors.length > 0 then
          scanAux rest plugins (errors ++ [⟨entry.name, validationErrors⟩])
        else
          scanAux rest (plugins ++ [mkEntry entry manifest]) errors

/-- The scanning loop of buildIndex: skip non-directories and dot names,
skip directories whose manifest the Reader could not produce, record the
validation errors of invalid manifests, and append an index entry for
each valid one. -/
def scanPlugins (dirs : List PluginDir) : List IndexEntry × List ErrRecord :=
  scanAux dirs [] []

/-- The String coercion applied to an entry name for the sort comparator;
the real script would throw at localeCompare for a non-string name, so
sorting theorems restrict to string names. -/
def entryNameStr (e : IndexEntry) : String :=
  jsToString e.name

/-- The sort comparator of buildIndex, a.name.localeCompare(b.name)
being non-positive. -/
def entryLe (a b : IndexEntry) : Prop :=
  localeLe (entryNameStr a) (entryNameStr b)

instance : DecidableRel entryLe := fun a b =>
  inferInstanceAs (Decidable (localeLe (entryNameStr a) (entryNameStr b)))

/-- The sorted plugins list of the index: the JS in-place stable sort by
the localeCompare comparator, modelled by a stable insertion sort. -/
def sortedPlugins (entries : List IndexEntry) : List IndexEntry :=
  List.insertionSort entryLe entries

/-- One entry of the static categories metadata array. -/
structure CategoryMeta where
  id : String
  name : String
  description : String

/-- The display name table of buildIndex; the lookup falls back to the
id itself. -/
def categoryName (c : String) : String :=
  match c with
  | "security" => "Security"
  | "integration" => "Integrations"
  | "monitoring" => "Monitoring"
  | "management" => "Management"
  | "utilities" => "Utilities"
  | "appearance" => "Appearance"
  | "fun" => "Fun"
  | other => other

/-- The description table of buildIndex; the lookup falls back to the
empty string. -/
def categoryDescription (c : String) : String :=
  match c with
  | "security" => "Security-related features and tools"
  | "integration" => "Third-party service integrations"
  | "monitoring" => "Monitoring and alerting tools"
  | "management" => "Server and user management"
  | "utilities" => "General utility plugins"
  | "appearance" => "Visual customizations and themes"
  | "fun" => "Fun and entertainment features"
  | _ => ""

/-- The static categories array, built from the closed category list
independently of the discovered plugins. -/
def buildCategories : List CategoryMeta :=
  VALID_CATEGORIES.map (fun c => ⟨c, categoryName c, categoryDescription c⟩)

/-- The root index document, without the generated_at wall-clock
timestamp (an input of no rule). -/
structure MarketplaceIndex where
  version : Nat
  plugin_count : Nat
  categories : List CategoryMeta
  plugins : List IndexEntry

/-- The buildIndex function: scan, sort by name, and assemble the root
document; the companion exit status is exitCode below. -/
def buildIndexDoc (dirs : List PluginDir) : MarketplaceIndex :=
  let scanned := scanPlugins dirs
  let sorted := sortedPlugins scanned.1
  { version := 2
    plugin_count := sorted.length
    categories := buildCategories
    plugins := sorted }

/-- The process exit status of the index builder: 1 exactly when the
errors accumulator is non-empty (a missing or unparsable manifest never
reaches it). -/
def exitCode (dirs : List PluginDir) : Nat :=
  if (scanPlugins dirs).2.length > 0 then 1 else 0

end BuildIndexScript

namespace ValidateScript

/-- Rule 1 contribution: one missingField error per falsy required
field, in declaration order. -/
def ruleRequired (m : Manifest) : List VErr :=
  requiredFields.filterMap
    (fun f => if truthy (getField m f) then none else some (.missingField f))

/-- Rule 2 contribution: the id errors, in push order, empty when the id
is falsy. -/
def ruleId (m : Manifest) (pid : String) : List VErr :=
  if truthy (getField m "id") then
    let idv := (getField m "id").getD .jnull
    (if isStrEq idv pid then [] else [.idMismatch (jsToString idv) pid]) ++
      (if idFormatTest (jsToString idv) then [] else [.invalidIdFormat]) ++
      (if optLt (jsLen idv) 2 || optGt (jsLen idv) 50 then [.invalidIdLength] else [])
  else []

/-- Rule 3 contribution: the version error. -/
def ruleVersion (m : Manifest) : List VErr :=
  if truthy (getField m "version") && !(semverFullTest (fieldStr m "version")) then
    [.invalidVersion]
  else []

/-- Rule 4 contribution: the category error. -/
def ruleCategory (m : Manifest) : List VErr :=
  if truthy (getField m "category") &&
      !(strListHas VALID_CATEGORIES ((getField m "category").getD .jnull)) then
    [.invalidCategory (fieldStr m "category")]
  else []

/-- Rule 5 contribution: the description length errors. -/
def ruleDescription (m : Manifest) : List VErr :=
  if truthy (getField m "description") then
    (if optLt (jsLen ((getField m "description").getD .jnull)) 10 then
      [.descTooShort] else []) ++
      (if optGt (jsLen ((getField m "description").getD .jnull)) 500 then
        [.descTooLong] else [])
  else []

/-- Rule 6 contribution: the entry point existence error. -/
def ruleEntryPoint (m : Manifest) (files : List String) : List VErr :=
  if truthy (getField m "entry_point") then
    if files.contains (fieldStr m "entry_point") then []
    else [.entryPointNotFound (fieldStr m "entry_point")]
  else []

/-- Rule 7 contribution: one scriptNotFound error per missing asset, in
array order; empty when the field is not an array. -/
def ruleScripts (m : Manifest) (files : List String) : List VErr :=
  match getField m "frontend_scripts" with
  | some (.jarr scripts) =>
    scripts.filterMap
      (fun s =>
        if files.contains ("assets/" ++ jsToString s) then none
        else some (.scriptNotFound ("assets/" ++ jsToString s)))
  | _ => []

/-- Rule 9 error contribution: the truthy non-array tags error. -/
def ruleTags (m : Manifest) : List VErr :=
  match getField m "tags" with
  | some tagsv =>
    if truthyV tagsv then
      match tagsv with
      | .jarr _ => []
      | _ => [.tagsNotArray]
    else []
  | none => []

/-- Rule 8 contribution: one unknownHook warning per unrecognised hook,
in array order. -/
def warnHooks (m : Manifest) : List VWarn :=
  match getField m "hooks" with
  | some (.jarr hooks) =>
    hooks.filterMap
      (fun h => if strListHas VALID_HOOKS h then none else some (.unknownHook (jsToString h)))
  | _ => []

/-- Rule 9 warning contribution: the too-many-tags recommendation. -/
def warnTags (m : Manifest) : List VWarn :=
  match getField m "tags" with
  | some (.jarr tags) => if 10 < tags.length then [.tooManyTags] else []
  | _ => []

end ValidateScript

namespace ValidateScriptB

/-- Rule 1 contribution of the part_001 validator. -/
def ruleRequired (m : Manifest) : List VErr :=
  requiredFields.filterMap
    (fun f => if truthy (getField m f) then none else some (.missingField f))

/-- Rule 2 contribution of the part_001 validator. -/
def ruleId (m : Manifest) (pid : String) : List VErr :=
  if truthy (getField m "id") then
    let idv := (getField m "id").getD .jnull
    (if isStrEq idv pid then [] else [.idMismatch (jsToString idv) pid]) ++
      (if idFormatTest (jsToString idv) then [] else [.invalidIdFormat]) ++
      (if optLt (jsLen idv) 3 || optGt (jsLen idv) 50 then [.invalidIdLength] else [])
  else []

/-- Rule 3 contribution of the part_001 validator. -/
def ruleVersion (m : Manifest) : List VErr :=
  if truthy (getField m "version") && !(semverFullTest (fieldStr m "version")) then
    [.invalidVersion]
  else []

/-- Rule 4 contribution of the part_001 validator. -/
def ruleCategory (m : Manifest) : List VErr :=
  if truthy (getField m "category") &&
      !(strListHas VALID_CATEGORIES ((getField m "category").getD .jnull)) then
    [.invalidCategory (fieldStr m "category")]
  else []

/-- Rule 5 contribution of the part_001 validator. -/
def ruleDescription (m : Manifest) : List VErr :=
  if truthy (getField m "description") then
    (if optLt (jsLen ((getField m "description").getD .jnull)) 10 then
      [.descTooShort] else []) ++
      (if optGt (jsLen ((getField m "description").getD .jnull)) 200 then
        [.descTooLong] else [])
  else []

/-- Rule 6 contribution of the part_001 validator. -/
def ruleEntryPoint (m : Manifest) (files : List String) : List VErr :=
  if truthy (getField m "entry_point") then
    if files.contains (fieldStr m "entry_point") then []
    else [.entryPointNotFound (fieldStr m "entry_point")]
  else []

/-- Rule 9 contribution of the part_001 validator: non-array tags and
overlong tags are both errors. -/
def ruleTags (m : Manifest) : List VErr :=
  match getField m "tags" with
  | some tagsv =>
    if truthyV tagsv then
      match tagsv with
      | .jarr tags => if 10 < tags.length then [.tooManyTags] else []
      | _ => [.tagsNotArray]
    else []
  | none => []

/-- Rule 8 contribution of the part_001 validator. -/
def warnHooks (m : Manifest) : List VWarn :=
  match getField m "hooks" with
  | some (.jarr hooks) =>
    hooks.filterMap
      (fun h => if strListHas VALID_HOOKS h then none else some (.unknownHook (jsToString h)))
  | _ => []

/-- Rule 10 contribution of the part_001 validator: the strict-mode-only
warnings. -/
def warnStrict (strict : Bool) (m : Manifest) (files : List String) : List VWarn :=
  if strict then
    (if files.contains "README.md" then [] else [.missingReadme]) ++
      (if files.contains "LICENSE" then [] else [.missingLicense]) ++
      (match getField m "repository" with
       | some (.jstr r) =>
         if r != "" && !(listPre "https://".data r.data) then [.nonHttpsRepo] else []
       | _ => [])
  else []

end ValidateScriptB

namespace BuildIndexScript

/-- Required-field contribution of the builder validator. -/
def ruleRequired (m : Manifest) : List VErr :=
  requiredFields.filterMap
    (fun f => if truthy (getField m f) then none else some (.missingField f))

/-- Id-directory match contribution of the builder validator. -/
def ruleIdMatch (m : Manifest) (pid : String) : List VErr :=
  if truthy (getField m "id") && !(isStrEq ((getField m "id").getD .jnull) pid) then
    [.idMismatch (fieldStr m "id") pid]
  else []

/-- Category contribution of the builder validator. -/
def ruleCategory (m : Manifest) : List VErr :=
  if truthy (getField m "category") &&
      !(strListHas VALID_CATEGORIES ((getField m "category").getD .jnull)) then
    [.invalidCategory (fieldStr m "category")]
  else []

/-- Version prefix contribution of the builder validator. -/
def ruleVersion (m : Manifest) : List VErr :=
  if truthy (getField m "version") && !(semverPrefixTest (fieldStr m "version")) then
    [.invalidVersion (fieldStr m "version")]
  else []

/-- Id format contribution of the builder validator. -/
def ruleIdFormat (m : Manifest) : List VErr :=
  if truthy (getField m "id") && !(idFormatTest (fieldStr m "id")) then
    [.invalidIdFormat (fieldStr m "id")]
  else []

/-- The index entry one directory contributes to the scan, if any. -/
def entryOf (d : PluginDir) : Option IndexEntry :=
  if d.isDir && !(startsDot d.name) then
    match d.read with
    | .ok m =>
      if (validateManifest m d.name).length > 0 then none
      else some (mkEntry d m)
    | _ => none
  else none

/-- The error record one directory contributes to the scan, if any. -/
def errRecOf (d : PluginDir) : Option ErrRecord :=
  if d.isDir && !(startsDot d.name) then
    match d.read with
    | .ok m =>
      if (validateManifest m d.name).length > 0 then some ⟨d.name, validateManifest m d.name⟩
      else none
    | _ => none
  else none

end BuildIndexScript

/-- Is a JS value an array (the Array.isArray test)? -/
def isArr : JVal → Bool
  | .jarr _ => true
  | _ => false

/-- Safety of one directory entry for whole-run theorems about the
part_001 script: a parsed manifest has a string-or-absent entry_point
and a string-or-absent repository (the two startsWith and join sites of
that script). -/
def dirSafeB (d : PluginDir) : Bool :=
  match d.read with
  | .ok m =>
    (match getField m "entry_point" with
     | none => true
     | some (.jstr _) => true
     | some v => !truthyV v) &&
    (match getField m "repository" with
     | none => true
     | some (.jstr _) => true
     | some v => !truthyV v)
  | _ => true

/-- Fixture: a well-formed manifest carrying one unrecognised hook, so
that validation yields no error and exactly one warning. -/
def warnManifest : Manifest :=
  [("id", .jstr "my-plugin"), ("name", .jstr "My Plugin"), ("version", .jstr "1.0.0"),
   ("author", .jstr "Val"), ("description", .jstr "A test plugin here"),
   ("hooks", .jarr [.jstr "on_everything"])]

/-- Fixture: the directory holding warnManifest. -/
def warnDir : PluginDir :=
  ⟨"my-plugin", true, .ok warnManifest, [], "t"⟩

/-- Fixture: a plugin directory with no manifest file. -/
def ghostDir : PluginDir :=
  ⟨"ghost", true, .missing, [], "t"⟩

/-- Fixture: a well-formed manifest except that its version has a junk
suffix after the three numeric components. -/
def junkVersionManifest : Manifest :=
  [("id", .jstr "plug"), ("name", .jstr "Plug"), ("version", .jstr "1.0.0x"),
   ("author", .jstr "Val"), ("description", .jstr "Ten characters plus")]

/-- Fixture: a valid manifest whose display name is lowercase alpha. -/
def alphaManifest : Manifest :=
  [("id", .jstr "alpha-plugin"), ("name", .jstr "alpha"), ("version", .jstr "1.0.0"),
   ("author", .jstr "Val"), ("description", .jstr "Ten characters plus")]

/-- Fixture: a valid manifest whose display name is capitalised Beta. -/
def betaManifest : Manifest :=
  [("id", .jstr "beta-plugin"), ("name", .jstr "Beta"), ("version", .jstr "1.0.0"),
   ("author", .jstr "Val"), ("description", .jstr "Ten characters plus")]

/-- Fixture: the directory holding alphaManifest. -/
def alphaDir : PluginDir :=
  ⟨"alpha-plugin", true, .ok alphaManifest, [], "t1"⟩

/-- Fixture: the directory holding betaManifest. -/
def betaDir : PluginDir :=
  ⟨"beta-plugin", true, .ok betaManifest, [], "t2"⟩

/-- Fixture: a valid manifest with min_panel_version absent and a falsy
(present) settings_schema. -/
def defaultsManifest : Manifest :=
  [("id", .jstr "plug"), ("name", .jstr "Plug"), ("version", .jstr "1.0.0"),
   ("author", .jstr "Val"), ("description", .jstr "Ten characters plus"),
   ("settings_schema", .jbool false)]

/-- Fixture: the directory holding defaultsManifest. -/
def defaultsDir : PluginDir :=
  ⟨"plug", true, .ok defaultsManifest, [], "t"⟩

/-- Fixture: a manifest with an invalid category and an invalid version
at once, to expose the rule evaluation order. -/
def orderManifest : Manifest :=
  [("id", .jstr "plug"), ("name", .jstr "Plug"), ("version", .jstr "1.0"),
   ("author", .jstr "Val"), ("description", .jstr "Ten characters plus"),
   ("category", .jstr "badcat")]

/-- Fixture: a manifest whose id is present but bound to the empty
string, a falsy value. -/
def falsyIdManifest : Manifest :=
  [("id", .jstr ""), ("name", .jstr "My Plugin"), ("version", .jstr "1.0.0"),
   ("author", .jstr "Val"), ("description", .jstr "A test plugin here")]

/-- Fixture: a manifest whose frontend_scripts and tags fields are both
present, truthy and not arrays. -/
def nonArrayManifest : Manifest :=
  [("id", .jstr "my-plugin"), ("name", .jstr "My Plugin"), ("version", .jstr "1.0.0"),
   ("author", .jstr "Val"), ("description", .jstr "A test plugin here"),
   ("frontend_scripts", .jstr "script.js"), ("tags", .jstr "tagtext")]

/-- Fixture: an otherwise valid manifest whose tags field is present,
not an array, and falsy (the empty string). -/
def falsyTagsManifest : Manifest :=
  [("id", .jstr "my-plugin"), ("name", .jstr "My Plugin"), ("version", .jstr "1.0.0"),
   ("author", .jstr "Val"), ("description", .jstr "A test plugin here"),
   ("tags", .jstr "")]

/-- Fixture: two valid manifests sharing the display name Same, to
exercise the stability of the sort. -/
def sameManifestOne : Manifest :=
  [("id", .jstr "same-one"), ("name", .jstr "Same"), ("version", .jstr "1.0.0"),
   ("author", .jstr "Val"), ("description", .jstr "Ten characters plus")]

/-- Fixture: the second manifest named Same. -/
def sameManifestTwo : Manifest :=
  [("id", .jstr "same-two"), ("name", .jstr "Same"), ("version", .jstr "1.0.0"),
   ("author", .jstr "Val"), ("description", .jstr "Ten characters plus")]

/-- Fixture: the directory holding sameManifestOne. -/
def sameDirOne : PluginDir :=
  ⟨"same-one", true, .ok sameManifestOne, [], "t1"⟩

/-- Fixture: the directory holding sameManifestTwo. -/
def sameDirTwo : PluginDir :=
  ⟨"same-two", true, .ok sameManifestTwo, [], "t2"⟩

/-- Fixture: a manifest valid under the part_001 validator (its eight
required fields present, entry point on disk), so that a strict run
produces only warnings. -/
def fullManifestB : Manifest :=
  [("id", .jstr "my-plugin"), ("name", .jstr "My Plugin"), ("version", .jstr "1.0.0"),
   ("author", .jstr "Val"), ("description", .jstr "A test plugin here"),
   ("category", .jstr "utilities"), ("license", .jstr "MIT"),
   ("entry_point", .jstr "main.go")]

/-- Fixture: the directory holding fullManifestB, with the entry point
present but no README or LICENSE. -/
def fullDirB : PluginDir :=
  ⟨"my-plugin", true, .ok fullManifestB, ["main.go"], "t"⟩


namespace ValidateScript

theorem reqAux_eq (m : Manifest) (fields : List String) (errs : List VErr) :
    reqAux m fields errs =
      errs ++ fields.filterMap
        (fun f => if truthy (getField m f) then none else some (.missingField f)) := by
  induction fields generalizing errs with
  | nil => simp [reqAux]
  | cons f rest ih =>
    by_cases h : truthy (getField m f) = true
    · simp [reqAux, h, ih]
    · simp only [Bool.not_eq_true] at h
      simp [reqAux, h, ih]

theorem reqAux_nil_eq (m : Manifest) : reqAux m requiredFields [] = ruleRequired m := by
  rw [reqAux_eq]
  simp [ruleRequired]

theorem scriptsAux_eq (files : List String) (scripts : List JVal) (errs : List VErr) :
    scriptsAux files scripts errs =
      errs ++ scripts.filterMap
        (fun s =>
          if files.contains ("assets/" ++ jsToString s) then none
          else some (.scriptNotFound ("assets/" ++ jsToString s))) := by
  induction scripts generalizing errs with
  | nil => simp [scriptsAux]
  | cons s rest ih =>
    by_cases h : ("assets/" ++ jsToString s) ∈ files
    · simp [scriptsAux, h, ih]
    · simp [scriptsAux, h, ih]

theorem hooksAux_eq (hooks : List JVal) (ws : List VWarn) :
    hooksAux hooks ws =
      ws ++ hooks.filterMap
        (fun h => if strListHas VALID_HOOKS h then none else some (.unknownHook (jsToString h))) := by
  induction hooks generalizing ws with
  | nil => simp [hooksAux]
  | cons h rest ih =>
    by_cases hh : strListHas VALID_HOOKS h = true
    · simp [hooksAux, hh, ih]
    · simp only [Bool.not_eq_true] at hh
      simp [hooksAux, hh, ih]

theorem idStep_eq (pid : String) (m : Manifest) (errs : List VErr) :
    idStep pid m errs = errs ++ ruleId m pid := by
  unfold idStep ruleId
  by_cases h : truthy (getField m "id") = true
  · by_cases h1 : isStrEq ((getField m "id").getD .jnull) pid = true <;>
      by_cases h2 : idFormatTest (jsToString ((getField m "id").getD .jnull)) = true <;>
      by_cases h3 : (optLt (jsLen ((getField m "id").getD .jnull)) 2 ||
          optGt (jsLen ((getField m "id").getD .jnull)) 50) = true <;>
      simp [h, h1, h2, h3]
  · simp [h]

theorem versionStep_eq (m : Manifest) (errs : List VErr) :
    versionStep m errs = errs ++ ruleVersion m := by
  unfold versionStep ruleVersion
  by_cases h : (truthy (getField m "version") && !(semverFullTest (fieldStr m "version"))) = true <;>
    simp [h]

theorem categoryStep_eq (m : Manifest) (errs : List VErr) :
    categoryStep m errs = errs ++ ruleCategory m := by
  unfold categoryStep ruleCategory
  by_cases h : (truthy (getField m "category") &&
      !(strListHas VALID_CATEGORIES ((getField m "category").getD .jnull))) = true <;>
    simp [h]

theorem descriptionStep_eq (m : Manifest) (errs : List VErr) :
    descriptionStep m errs = errs ++ ruleDescription m := by
  unfold descriptionStep ruleDescription
  by_cases h : truthy (getField m "description") = true
  · by_cases h1 : optLt (jsLen ((getField m "description").getD .jnull)) 10 = true <;>
      by_cases h2 : optGt (jsLen ((getField m "description").getD .jnull)) 500 = true <;>
      simp [h, h1, h2]
  · simp [h]

theorem entryPointStep_eq (m : Manifest) (files : List String) (errs : List VErr) :
    entryPointStep m files errs = errs ++ ruleEntryPoint m files := by
  unfold entryPointStep ruleEntryPoint
  by_cases h : truthy (getField m "entry_point") = true
  · by_cases h1 : fieldStr m "entry_point" ∈ files <;> simp [h, h1]
  · simp [h]

theorem scriptsStep_eq (m : Manifest) (files : List String) (errs : List VErr) :
    scriptsStep m files errs = errs ++ ruleScripts m files := by
  unfold scriptsStep ruleScripts
  cases hfs : getField m "frontend_scripts" with
  | none => simp
  | some v => cases v <;> simp [scriptsAux_eq]

theorem hooksStep_eq (m : Manifest) (ws : List VWarn) :
    hooksStep m ws = ws ++ warnHooks m := by
  unfold hooksStep warnHooks
  cases hfs : getField m "hooks" with
  | none => simp
  | some v => cases v <;> simp [hooksAux_eq]

theorem tagsStep_eq (m : Manifest) (errs : List VErr) (ws : List VWarn) :
    tagsStep m errs ws = (errs ++ ruleTags m, ws ++ warnTags m) := by
  unfold tagsStep ruleTags warnTags
  cases ht : getField m "tags" with
  | none => simp
  | some v =>
    cases v with
    | jarr tags =>
      by_cases hl : 10 < tags.length <;> simp [truthyV, hl]
    | jnull => simp [truthyV]
    | jbool b => cases b <;> simp [truthyV]
    | jnum n => by_cases hn : (n != 0) = true <;> simp [truthyV, hn]
    | jstr s => by_cases hs : (s != "") = true <;> simp [truthyV, hs]
    | jobj fs => simp [truthyV]

theorem validatePlugin_ok_eq (pid : String) (m : Manifest) (files : List String) :
    validatePlugin pid (.ok m) files =
      (ruleRequired m ++ ruleId m pid ++ ruleVersion m ++ ruleCategory m ++
         ruleDescription m ++ ruleEntryPoint m files ++ ruleScripts m files ++ ruleTags m,
       warnHooks m ++ warnTags m) := by
  simp only [validatePlugin]
  rw [reqAux_nil_eq, idStep_eq, versionStep_eq, categoryStep_eq, descriptionStep_eq,
    entryPointStep_eq, scriptsStep_eq, hooksStep_eq, tagsStep_eq]
  simp [List.append_assoc]

end ValidateScript

namespace ValidateScriptB

theorem reqAux_eqB (m : Manifest) (fields : List String) (errs : List VErr) :
    reqAux m fields errs =
      errs ++ fields.filterMap
        (fun f => if truthy (getField m f) then none else some (.missingField f)) := by
  induction fields generalizing errs with
  | nil => simp [reqAux]
  | cons f rest ih =>
    by_cases h : truthy (getField m f) = true
    · simp [reqAux, h, ih]
    · simp only [Bool.not_eq_true] at h
      simp [reqAux, h, ih]

theorem reqAux_nil_eqB (m : Manifest) : reqAux m requiredFields [] = ruleRequired m := by
  rw [reqAux_eqB]
  simp [ruleRequired]

theorem hooksAux_eqB (hooks : List JVal) (ws : List VWarn) :
    hooksAux hooks ws =
      ws ++ hooks.filterMap
        (fun h => if strListHas VALID_HOOKS h then none else some (.unknownHook (jsToString h))) := by
  induction hooks generalizing ws with
  | nil => simp [hooksAux]
  | cons h rest ih =>
    by_cases hh : strListHas VALID_HOOKS h = true
    · simp [hooksAux, hh, ih]
    · simp only [Bool.not_eq_true] at hh
      simp [hooksAux, hh, ih]

theorem idStep_eqB (pid : String) (m : Manifest) (errs : List VErr) :
    idStep pid m errs = errs ++ ruleId m pid := by
  unfold idStep ruleId
  by_cases h : truthy (getField m "id") = true
  · by_cases h1 : isStrEq ((getField m "id").getD .jnull) pid = true <;>
      by_cases h2 : idFormatTest (jsToString ((getField m "id").getD .jnull)) = true <;>
      by_cases h3 : (optLt (jsLen ((getField m "id").getD .jnull)) 3 ||
          optGt (jsLen ((getField m "id").getD .jnull)) 50) = true <;>
      simp [h, h1, h2, h3]
  · simp [h]

theorem versionStep_eqB (m : Manifest) (errs : List VErr) :
    versionStep m errs = errs ++ ruleVersion m := by
  unfold versionStep ruleVersion
  by_cases h : (truthy (getField m "version") && !(semverFullTest (fieldStr m "version"))) = true <;>
    simp [h]

theorem categoryStep_eqB (m : Manifest) (errs : List VErr) :
    categoryStep m errs = errs ++ ruleCategory m := by
  unfold categoryStep ruleCategory
  by_cases h : (truthy (getField m "category") &&
      !(strListHas VALID_CATEGORIES ((getField m "category").getD .jnull))) = true <;>
    simp [h]

theorem descriptionStep_eqB (m : Manifest) (errs : List VErr) :
    descriptionStep m errs = errs ++ ruleDescription m := by
  unfold descriptionStep ruleDescription
  by_cases h : truthy (getField m "description") = true
  · by_cases h1 : optLt (jsLen ((getField m "description").getD .jnull)) 10 = true <;>
      by_cases h2 : optGt (jsLen ((getField m "description").getD .jnull)) 200 = true <;>
      simp [h, h1, h2]
  · simp [h]

theorem entryPointStep_eqB (m : Manifest) (files : List String) (errs : List VErr) :
    entryPointStep m files errs = errs ++ ruleEntryPoint m files := by
  unfold entryPointStep ruleEntryPoint
  by_cases h : truthy (getField m "entry_point") = true
  · by_cases h1 : fieldStr m "entry_point" ∈ files <;> simp [h, h1]
  · simp [h]

theorem hooksStep_eqB (m : Manifest) (ws : List VWarn) :
    hooksStep m ws = ws ++ warnHooks m := by
  unfold hooksStep warnHooks
  cases hfs : getField m "hooks" with
  | none => simp
  | some v => cases v <;> simp [hooksAux_eqB]

theorem tagsStep_eqB (m : Manifest) (errs : List VErr) :
    tagsStep m errs = errs ++ ruleTags m := by
  unfold tagsStep ruleTags
  cases ht : getField m "tags" with
  | none => simp
  | some v =>
    cases v with
    | jarr tags =>
      by_cases hl : 10 < tags.length <;> simp [truthyV, hl]
    | jnull => simp [truthyV]
    | jbool b => cases b <;> simp [truthyV]
    | jnum n => by_cases hn : (n != 0) = true <;> simp [truthyV, hn]
    | jstr s => by_cases hs : (s != "") = true <;> simp [truthyV, hs]
    | jobj fs => simp [truthyV]

theorem strictStep_eq (strict : Bool) (m : Manifest) (files : List String) (ws : List VWarn) :
    strictStep strict m files ws = ws ++ warnStrict strict m files := by
  unfold strictStep warnStrict
  cases strict with
  | false => simp
  | true =>
    by_cases h1 : "README.md" ∈ files <;>
      by_cases h2 : "LICENSE" ∈ files <;>
      cases hr : getField m "repository" with
    | none => simp [h1, h2]
    | some v =>
      cases v with
      | jstr r =>
        by_cases h3 : (r != "" && !(listPre "https://".data r.data)) = true <;>
          simp [h1, h2, h3]
      | jnull => simp [h1, h2]
      | jbool b => simp [h1, h2]
      | jnum n => simp [h1, h2]
      | jarr xs => simp [h1, h2]
      | jobj fs => simp [h1, h2]

theorem validatePlugin_ok_eqB (strict : Bool) (pid : String) (m : Manifest)
    (files : List String) :
    validatePlugin strict pid (.ok m) files =
      (ruleRequired m ++ ruleId m pid ++ ruleVersion m ++ ruleCategory m ++
         ruleDescription m ++ ruleEntryPoint m files ++ ruleTags m,
       warnHooks m ++ warnStrict strict m files) := by
  simp only [validatePlugin]
  rw [reqAux_nil_eqB, idStep_eqB, versionStep_eqB, categoryStep_eqB, descriptionStep_eqB,
    entryPointStep_eqB, hooksStep_eqB, tagsStep_eqB, strictStep_eq]
  simp [List.append_assoc]

end ValidateScriptB

namespace BuildIndexScript

theorem reqAux_eqBI (m : Manifest) (fields : List String) (errs : List VErr) :
    reqAux m fields errs =
      errs ++ fields.filterMap
        (fun f => if truthy (getField m f) then none else some (.missingField f)) := by
  induction fields generalizing errs with
  | nil => simp [reqAux]
  | cons f rest ih =>
    by_cases h : truthy (getField m f) = true
    · simp [reqAux, h, ih]
    · simp only [Bool.not_eq_true] at h
      simp [reqAux, h, ih]

theorem reqAux_nil_eqBI (m : Manifest) : reqAux m requiredFields [] = ruleRequired m := by
  rw [reqAux_eqBI]
  simp [ruleRequired]

theorem idMatchStep_eq (m : Manifest) (pid : String) (errs : List VErr) :
    idMatchStep m pid errs = errs ++ ruleIdMatch m pid := by
  unfold idMatchStep ruleIdMatch
  by_cases h : (truthy (getField m "id") &&
      !(isStrEq ((getField m "id").getD .jnull) pid)) = true <;> simp [h]

theorem categoryStep_eqBI (m : Manifest) (errs : List VErr) :
    categoryStep m errs = errs ++ ruleCategory m := by
  unfold categoryStep ruleCategory
  by_cases h : (truthy (getField m "category") &&
      !(strListHas VALID_CATEGORIES ((getField m "category").getD .jnull))) = true <;>
    simp [h]

theorem versionStep_eqBI (m : Manifest) (errs : List VErr) :
    versionStep m errs = errs ++ ruleVersion m := by
  unfold versionStep ruleVersion
  by_cases h : (truthy (getField m "version") &&
      !(semverPrefixTest (fieldStr m "version"))) = true <;> simp [h]

theorem idFormatStep_eq (m : Manifest) (errs : List VErr) :
    idFormatStep m errs = errs ++ ruleIdFormat m := by
  unfold idFormatStep ruleIdFormat
  by_cases h : (truthy (getField m "id") && !(idFormatTest (fieldStr m "id"))) = true <;>
    simp [h]

theorem validateManifest_eq (m : Manifest) (pid : String) :
    validateManifest m pid =
      ruleRequired m ++ ruleIdMatch m pid ++ ruleCategory m ++ ruleVersion m ++
        ruleIdFormat m := by
  simp only [validateManifest]
  rw [reqAux_nil_eqBI, idMatchStep_eq, categoryStep_eqBI, versionStep_eqBI, idFormatStep_eq]

theorem scanAux_eq (dirs : List PluginDir) (ps : List IndexEntry) (es : List ErrRecord) :
    scanAux dirs ps es = (ps ++ dirs.filterMap entryOf, es ++ dirs.filterMap errRecOf) := by
  induction dirs generalizing ps es with
  | nil => simp [scanAux]
  | cons d rest ih =>
    by_cases hdir : d.isDir = true
    · by_cases hdot : startsDot d.name = true
      · simp [scanAux, entryOf, errRecOf, hdir, hdot, ih]
      · simp only [Bool.not_eq_true] at hdot
        cases hread : d.read with
        | missing => simp [scanAux, entryOf, errRecOf, hdir, hdot, hread, ih]
        | badJson msg => simp [scanAux, entryOf, errRecOf, hdir, hdot, hread, ih]
        | ok m =>
          by_cases herr : (validateManifest m d.name).length > 0
          · simp [scanAux, entryOf, errRecOf, hdir, hdot, hread, herr, ih]
          · simp [scanAux, entryOf, errRecOf, hdir, hdot, hread, herr, ih]
    · simp only [Bool.not_eq_true] at hdir
      simp [scanAux, entryOf, errRecOf, hdir, ih]

theorem scanPlugins_eq (dirs : List PluginDir) :
    scanPlugins dirs = (dirs.filterMap entryOf, dirs.filterMap errRecOf) := by
  simp [scanPlugins, scanAux_eq]

end BuildIndexScript

namespace ValidateScript

theorem mainLoop_snd (plugins : List PluginDir) (v : Nat) (h : Bool) :
    (mainLoop plugins v h).2 =
      (h || plugins.any (fun d => !(validatePlugin d.name d.read d.files).1.isEmpty)) := by
  induction plugins generalizing v h with
  | nil => simp [mainLoop]
  | cons d rest ih =>
    by_cases he : (validatePlugin d.name d.read d.files).1.isEmpty = true
    · simp [mainLoop, he, ih]
    · simp only [Bool.not_eq_true] at he
      simp [mainLoop, he, ih]

theorem mainExit_eq (strict : Bool) (dirs : List PluginDir) :
    mainExit strict dirs = (if anyPluginErrors dirs && strict then 1 else 0) := by
  simp only [mainExit, anyPluginErrors]
  rw [mainLoop_snd]
  simp

end ValidateScript

namespace ValidateScriptB

theorem mainLoop_fst (strict : Bool) (dirs : List PluginDir) (h : Bool) (t v : Nat) :
    (mainLoop strict dirs h t v).1 =
      (h || (dirs.filter (fun d => d.isDir && !(startsDot d.name))).any
        (fun d => !(validatePlugin strict d.name d.read d.files).1.isEmpty)) := by
  induction dirs generalizing h t v with
  | nil => simp [mainLoop]
  | cons d rest ih =>
    by_cases hc : (d.isDir && !(startsDot d.name)) = true
    · by_cases he : (validatePlugin strict d.name d.read d.files).1.isEmpty = true
      · simp [mainLoop, hc, he, ih]
      · simp only [Bool.not_eq_true] at he
        simp [mainLoop, hc, he, ih]
    · simp only [Bool.not_eq_true] at hc
      simp [mainLoop, hc, ih]

theorem mainExit_eqB (strict : Bool) (dirs : List PluginDir) :
    mainExit strict dirs = (if anyPluginErrors strict dirs then 1 else 0) := by
  simp only [mainExit, anyPluginErrors]
  rw [mainLoop_fst]
  simp

end ValidateScriptB


theorem cmpList_eq_iff {α : Type} [LinearOrder α] :
    ∀ x y : List α, cmpList x y = .eq ↔ x = y
  | [], [] => by simp [cmpList]
  | [], _ :: _ => by simp [cmpList]
  | _ :: _, [] => by simp [cmpList]
  | a :: as, b :: bs => by
    simp only [cmpList]
    by_cases h1 : a < b
    · simp [h1, ne_of_lt h1]
    · by_cases h2 : b < a
      · simp [h1, h2, ne_of_gt h2]
      · have hab : a = b := le_antisymm (not_lt.1 h2) (not_lt.1 h1)
        subst hab
        simp [h1, h2, cmpList_eq_iff as bs]

theorem cmpList_refl {α : Type} [LinearOrder α] (x : List α) : cmpList x x = .eq :=
  (cmpList_eq_iff x x).2 rfl

theorem cmpList_gt_iff {α : Type} [LinearOrder α] :
    ∀ x y : List α, cmpList x y = .gt ↔ cmpList y x = .lt
  | [], [] => by simp [cmpList]
  | [], _ :: _ => by simp [cmpList]
  | _ :: _, [] => by simp [cmpList]
  | a :: as, b :: bs => by
    simp only [cmpList]
    rcases lt_trichotomy a b with h | h | h
    · simp [h, asymm h]
    · subst h
      simp [lt_irrefl, cmpList_gt_iff as bs]
    · simp [h, asymm h]

theorem cmpList_lt_trans {α : Type} [LinearOrder α] :
    ∀ x y z : List α, cmpList x y = .lt → cmpList y z = .lt → cmpList x z = .lt := by
  intro x
  induction x with
  | nil =>
    intro y z h1 h2
    cases y with
    | nil => simp [cmpList] at h1
    | cons b bs =>
      cases z with
      | nil => simp [cmpList] at h2
      | cons c cs => simp [cmpList]
  | cons a as ih =>
    intro y z h1 h2
    cases y with
    | nil => simp [cmpList] at h1
    | cons b bs =>
      cases z with
      | nil => simp [cmpList] at h2
      | cons c cs =>
        simp only [cmpList] at h1 h2 ⊢
        by_cases hab : a < b
        · by_cases hbc : b < c
          · simp [lt_trans hab hbc]
          · by_cases hcb : c < b
            · simp [hbc, hcb] at h2
            · have hbc2 : b = c := le_antisymm (not_lt.1 hcb) (not_lt.1 hbc)
              subst hbc2
              simp [hab]
        · by_cases hba : b < a
          · simp [hab, hba] at h1
          · have hba2 : a = b := le_antisymm (not_lt.1 hba) (not_lt.1 hab)
            subst hba2
            simp only [lt_irrefl, if_false] at h1
            by_cases hac : a < c
            · simp [hac]
            · by_cases hca : c < a
              · simp [hac, hca] at h2
              · have hca2 : a = c := le_antisymm (not_lt.1 hca) (not_lt.1 hac)
                subst hca2
                simp only [lt_irrefl, if_false] at h2 ⊢
                exact ih bs cs h1 h2

theorem cmpList_ne_gt_trans {α : Type} [LinearOrder α] (x y z : List α) :
    cmpList x y ≠ .gt → cmpList y z ≠ .gt → cmpList x z ≠ .gt := by
  intro h1 h2
  rcases e1 : cmpList x y with _ | _ | _
  · rcases e2 : cmpList y z with _ | _ | _
    · have h3 := cmpList_lt_trans x y z e1 e2
      simp [h3]
    · have hyz := (cmpList_eq_iff y z).1 e2
      have h3 : cmpList x z = .lt := by rw [hyz] at e1; exact e1
      simp [h3]
    · exact absurd e2 h2
  · have hxy := (cmpList_eq_iff x y).1 e1
    have h3 : cmpList x z = cmpList y z := by rw [hxy]
    rw [h3]
    exact h2
  · exact absurd e1 h1

theorem localeCmp_ne_gt_iff (a b : String) :
    localeCmp a b ≠ .gt ↔
      (cmpList (lowerKey a) (lowerKey b) = .lt ∨
        (lowerKey a = lowerKey b ∧ cmpList (caseKey a) (caseKey b) ≠ .gt)) := by
  unfold localeCmp
  cases h : cmpList (lowerKey a) (lowerKey b) with
  | lt => simp
  | eq => simp [(cmpList_eq_iff (lowerKey a) (lowerKey b)).1 h]
  | gt =>
    have hne : lowerKey a ≠ lowerKey b := by
      intro he
      rw [(cmpList_eq_iff (lowerKey a) (lowerKey b)).2 he] at h
      cases h
    simp [hne]

theorem localeLe_total (a b : String) : localeLe a b ∨ localeLe b a := by
  unfold localeLe
  rw [localeCmp_ne_gt_iff, localeCmp_ne_gt_iff]
  rcases e : cmpList (lowerKey a) (lowerKey b) with _ | _ | _
  · left
    left
    rfl
  · have he := (cmpList_eq_iff (lowerKey a) (lowerKey b)).1 e
    rcases ec : cmpList (caseKey a) (caseKey b) with _ | _ | _
    · left
      right
      exact ⟨he, by simp [ec]⟩
    · left
      right
      exact ⟨he, by simp [ec]⟩
    · right
      right
      refine ⟨he.symm, ?_⟩
      have := (cmpList_gt_iff (caseKey a) (caseKey b)).1 ec
      simp [this]
  · right
    left
    exact (cmpList_gt_iff (lowerKey a) (lowerKey b)).1 e

theorem localeLe_trans (a b c : String) :
    localeLe a b → localeLe b c → localeLe a c := by
  unfold localeLe
  rw [localeCmp_ne_gt_iff, localeCmp_ne_gt_iff, localeCmp_ne_gt_iff]
  rintro (h1 | ⟨h1e, h1c⟩) (h2 | ⟨h2e, h2c⟩)
  · exact Or.inl (cmpList_lt_trans _ _ _ h1 h2)
  · left
    rw [← h2e]
    exact h1
  · left
    rw [h1e]
    exact h2
  · right
    exact ⟨h1e.trans h2e, cmpList_ne_gt_trans _ _ _ h1c h2c⟩

namespace ValidateScript

theorem mem_ruleRequired_iff (m : Manifest) (f : String) :
    (VErr.missingField f ∈ ruleRequired m) ↔
      (f ∈ requiredFields ∧ truthy (getField m f) = false) := by
  simp only [ruleRequired, List.mem_filterMap]
  constructor
  · rintro ⟨g, hg, hsome⟩
    by_cases ht : truthy (getField m g) = true
    · simp [ht] at hsome
    · simp only [Bool.not_eq_true] at ht
      simp only [ht, Bool.false_eq_true, if_false, Option.some.injEq,
        VErr.missingField.injEq] at hsome
      subst hsome
      exact ⟨hg, ht⟩
  · rintro ⟨hf, ht⟩
    exact ⟨f, hf, by simp [ht]⟩

theorem mem_ruleRequired_cases (m : Manifest) (e : VErr) (h : e ∈ ruleRequired m) :
    ∃ f, e = .missingField f := by
  simp only [ruleRequired, List.mem_filterMap] at h
  rcases h with ⟨g, _, hsome⟩
  by_cases ht : truthy (getField m g) = true
  · simp [ht] at hsome
  · simp only [Bool.not_eq_true] at ht
    simp only [ht, Bool.false_eq_true, if_false, Option.some.injEq] at hsome
    exact ⟨g, hsome.symm⟩

theorem mem_ruleId_cases (m : Manifest) (pid : String) (e : VErr) (h : e ∈ ruleId m pid) :
    (∃ s, e = .idMismatch s pid) ∨ e = .invalidIdFormat ∨ e = .invalidIdLength := by
  unfold ruleId at h
  by_cases h0 : truthy (getField m "id") = true
  · rw [if_pos h0] at h
    simp only [List.mem_append] at h
    rcases h with (h | h) | h
    · split_ifs at h
      · simp at h
      · simp only [List.mem_singleton] at h
        exact Or.inl ⟨_, h⟩
    · split_ifs at h
      · simp at h
      · simp only [List.mem_singleton] at h
        exact Or.inr (Or.inl h)
    · split_ifs at h
      · simp only [List.mem_singleton] at h
        exact Or.inr (Or.inr h)
      · simp at h
  · rw [if_neg h0] at h
    simp at h

theorem mem_ruleVersion_iff (m : Manifest) (e : VErr) :
    e ∈ ruleVersion m ↔
      (e = .invalidVersion ∧
        (truthy (getField m "version") && !(semverFullTest (fieldStr m "version"))) = true) := by
  unfold ruleVersion
  split_ifs with h <;> simp [h]

theorem mem_ruleCategory_cases (m : Manifest) (e : VErr) (h : e ∈ ruleCategory m) :
    ∃ s, e = .invalidCategory s := by
  unfold ruleCategory at h
  split_ifs at h <;> simp_all

theorem mem_ruleDescription_cases (m : Manifest) (e : VErr) (h : e ∈ ruleDescription m) :
    e = .descTooShort ∨ e = .descTooLong := by
  unfold ruleDescription at h
  split_ifs at h <;> simp_all

theorem mem_ruleEntryPoint_cases (m : Manifest) (files : List String) (e : VErr)
    (h : e ∈ ruleEntryPoint m files) : ∃ s, e = .entryPointNotFound s := by
  unfold ruleEntryPoint at h
  split_ifs at h <;> simp_all

theorem mem_ruleScripts_cases (m : Manifest) (files : List String) (e : VErr)
    (h : e ∈ ruleScripts m files) : ∃ s, e = .scriptNotFound s := by
  unfold ruleScripts at h
  cases hfs : getField m "frontend_scripts" with
  | none =>
    rw [hfs] at h
    simp at h
  | some v =>
    rw [hfs] at h
    cases v with
    | jarr scripts =>
      simp only [List.mem_filterMap] at h
      rcases h with ⟨s, _, hsome⟩
      by_cases hc : files.contains ("assets/" ++ jsToString s) = true
      · rw [if_pos hc] at hsome
        cases hsome
      · rw [if_neg hc] at hsome
        injection hsome with h2
        exact ⟨_, h2.symm⟩
    | jnull => simp at h
    | jbool b => simp at h
    | jnum n => simp at h
    | jstr t => simp at h
    | jobj fs => simp at h

theorem mem_ruleTags_cases (m : Manifest) (e : VErr) (h : e ∈ ruleTags m) :
    e = .tagsNotArray := by
  unfold ruleTags at h
  cases ht : getField m "tags" with
  | none =>
    rw [ht] at h
    simp at h
  | some v =>
    rw [ht] at h
    cases v <;> simp [truthyV] at h <;> simp_all

theorem mem_ruleTags_iff (m : Manifest) :
    VErr.tagsNotArray ∈ ruleTags m ↔
      ∃ v, getField m "tags" = some v ∧ truthyV v = true ∧ isArr v = false := by
  unfold ruleTags
  cases ht : getField m "tags" with
  | none => simp
  | some v =>
    cases v with
    | jarr tags => simp [truthyV, isArr]
    | jnull => simp [truthyV]
    | jbool b => cases b <;> simp [truthyV, isArr]
    | jnum n => by_cases hn : (n != 0) = true <;> simp [truthyV, isArr, hn]
    | jstr s => by_cases hs : (s != "") = true <;> simp [truthyV, isArr, hs]
    | jobj fs => simp [truthyV, isArr]

theorem ruleScripts_nil_of_nonarray (m : Manifest) (files : List String) (v : JVal)
    (hv : getField m "frontend_scripts" = some v) (ha : isArr v = false) :
    ruleScripts m files = [] := by
  unfold ruleScripts
  rw [hv]
  cases v <;> simp_all [isArr]

end ValidateScript

namespace ValidateScriptB

theorem mem_ruleRequired_iffB (m : Manifest) (f : String) :
    (VErr.missingField f ∈ ruleRequired m) ↔
      (f ∈ requiredFields ∧ truthy (getField m f) = false) := by
  simp only [ruleRequired, List.mem_filterMap]
  constructor
  · rintro ⟨g, hg, hsome⟩
    by_cases ht : truthy (getField m g) = true
    · simp [ht] at hsome
    · simp only [Bool.not_eq_true] at ht
      simp only [ht, Bool.false_eq_true, if_false, Option.some.injEq,
        VErr.missingField.injEq] at hsome
      subst hsome
      exact ⟨hg, ht⟩
  · rintro ⟨hf, ht⟩
    exact ⟨f, hf, by simp [ht]⟩

theorem mem_ruleId_casesB (m : Manifest) (pid : String) (e : VErr) (h : e ∈ ruleId m pid) :
    (∃ s, e = .idMismatch s pid) ∨ e = .invalidIdFormat ∨ e = .invalidIdLength := by
  unfold ruleId at h
  by_cases h0 : truthy (getField m "id") = true
  · rw [if_pos h0] at h
    simp only [List.mem_append] at h
    rcases h with (h | h) | h
    · split_ifs at h
      · simp at h
      · simp only [List.mem_singleton] at h
        exact Or.inl ⟨_, h⟩
    · split_ifs at h
      · simp at h
      · simp only [List.mem_singleton] at h
        exact Or.inr (Or.inl h)
    · split_ifs at h
      · simp only [List.mem_singleton] at h
        exact Or.inr (Or.inr h)
      · simp at h
  · rw [if_neg h0] at h
    simp at h

theorem mem_ruleVersion_cases (m : Manifest) (e : VErr) (h : e ∈ ruleVersion m) :
    e = .invalidVersion := by
  unfold ruleVersion at h
  split_ifs at h <;> simp_all

theorem mem_ruleCategory_casesB (m : Manifest) (e : VErr) (h : e ∈ ruleCategory m) :
    ∃ s, e = .invalidCategory s := by
  unfold ruleCategory at h
  split_ifs at h <;> simp_all

theorem mem_ruleDescription_casesB (m : Manifest) (e : VErr) (h : e ∈ ruleDescription m) :
    e = .descTooShort ∨ e = .descTooLong := by
  unfold ruleDescription at h
  split_ifs at h <;> simp_all

theorem mem_ruleEntryPoint_casesB (m : Manifest) (files : List String) (e : VErr)
    (h : e ∈ ruleEntryPoint m files) : ∃ s, e = .entryPointNotFound s := by
  unfold ruleEntryPoint at h
  split_ifs at h <;> simp_all

theorem mem_ruleTags_casesB (m : Manifest) (e : VErr) (h : e ∈ ruleTags m) :
    e = .tagsNotArray ∨ e = .tooManyTags := by
  unfold ruleTags at h
  cases ht : getField m "tags" with
  | none =>
    rw [ht] at h
    simp at h
  | some v =>
    rw [ht] at h
    cases v <;> simp [truthyV] at h <;> simp_all

end ValidateScriptB

namespace BuildIndexScript

theorem mem_ruleRequired_iffBI (m : Manifest) (f : String) :
    (VErr.missingField f ∈ ruleRequired m) ↔
      (f ∈ requiredFields ∧ truthy (getField m f) = false) := by
  simp only [ruleRequired, List.mem_filterMap]
  constructor
  · rintro ⟨g, hg, hsome⟩
    by_cases ht : truthy (getField m g) = true
    · simp [ht] at hsome
    · simp only [Bool.not_eq_true] at ht
      simp only [ht, Bool.false_eq_true, if_false, Option.some.injEq,
        VErr.missingField.injEq] at hsome
      subst hsome
      exact ⟨hg, ht⟩
  · rintro ⟨hf, ht⟩
    exact ⟨f, hf, by simp [ht]⟩

theorem mem_ruleRequired_casesBI (m : Manifest) (e : VErr) (h : e ∈ ruleRequired m) :
    ∃ f, e = .missingField f := by
  simp only [ruleRequired, List.mem_filterMap] at h
  rcases h with ⟨g, _, hsome⟩
  by_cases ht : truthy (getField m g) = true
  · simp [ht] at hsome
  · simp only [Bool.not_eq_true] at ht
    simp only [ht, Bool.false_eq_true, if_false, Option.some.injEq] at hsome
    exact ⟨g, hsome.symm⟩

theorem mem_ruleIdMatch_cases (m : Manifest) (pid : String) (e : VErr)
    (h : e ∈ ruleIdMatch m pid) : ∃ s, e = .idMismatch s pid := by
  unfold ruleIdMatch at h
  split_ifs at h <;> simp_all

theorem mem_ruleCategory_casesBI (m : Manifest) (e : VErr) (h : e ∈ ruleCategory m) :
    ∃ s, e = .invalidCategory s := by
  unfold ruleCategory at h
  split_ifs at h <;> simp_all

theorem mem_ruleVersion_iffBI (m : Manifest) (e : VErr) :
    e ∈ ruleVersion m ↔
      (e = .invalidVersion (fieldStr m "version") ∧
        (truthy (getField m "version") && !(semverPrefixTest (fieldStr m "version"))) = true) := by
  unfold ruleVersion
  split_ifs with h <;> simp [h]

theorem mem_ruleIdFormat_cases (m : Manifest) (e : VErr) (h : e ∈ ruleIdFormat m) :
    ∃ s, e = .invalidIdFormat s := by
  unfold ruleIdFormat at h
  split_ifs at h <;> simp_all

end BuildIndexScript

theorem getField_erase_self (m : Manifest) (k : String) :
    getField (eraseField m k) k = none := by
  induction m with
  | nil => rfl
  | cons p rest ih =>
    by_cases h : p.1 = k
    · simp [eraseField, getField, h, ih]
    · simp [eraseField, getField, h, ih]

theorem getField_erase_ne (m : Manifest) (k j : String) (hne : j ≠ k) :
    getField (eraseField m k) j = getField m j := by
  induction m with
  | nil => rfl
  | cons p rest ih =>
    by_cases h : p.1 = k
    · simp [eraseField, getField, h, Ne.symm hne, ih]
    · by_cases h2 : p.1 = j
      · simp [eraseField, getField, h, h2, hne, ih]
      · simp [eraseField, getField, h, h2, ih]

theorem truthy_getField_erase (m : Manifest) (f k : String)
    (hf : truthy (getField m f) = false) :
    truthy (getField (eraseField m f) k) = truthy (getField m k) := by
  by_cases h : k = f
  · subst h
    rw [getField_erase_self, hf]
    rfl
  · rw [getField_erase_ne m f k h]

namespace ValidateScript

theorem ruleRequired_erase (m : Manifest) (f : String)
    (hf : truthy (getField m f) = false) :
    ruleRequired (eraseField m f) = ruleRequired m := by
  unfold ruleRequired
  congr 1
  funext g
  rw [truthy_getField_erase m f g hf]

theorem ruleId_congr (m1 m2 : Manifest) (pid : String)
    (h : getField m1 "id" = getField m2 "id") : ruleId m1 pid = ruleId m2 pid := by
  unfold ruleId
  rw [h]

theorem ruleId_nil (m : Manifest) (pid : String) (h : truthy (getField m "id") = false) :
    ruleId m pid = [] := by
  unfold ruleId
  simp [h]

theorem ruleVersion_congr (m1 m2 : Manifest)
    (h : getField m1 "version" = getField m2 "version") : ruleVersion m1 = ruleVersion m2 := by
  unfold ruleVersion fieldStr
  rw [h]

theorem ruleVersion_nil (m : Manifest) (h : truthy (getField m "version") = false) :
    ruleVersion m = [] := by
  unfold ruleVersion
  simp [h]

theorem ruleCategory_congr (m1 m2 : Manifest)
    (h : getField m1 "category" = getField m2 "category") :
    ruleCategory m1 = ruleCategory m2 := by
  unfold ruleCategory fieldStr
  rw [h]

theorem ruleDescription_congr (m1 m2 : Manifest)
    (h : getField m1 "description" = getField m2 "description") :
    ruleDescription m1 = ruleDescription m2 := by
  unfold ruleDescription
  rw [h]

theorem ruleDescription_nil (m : Manifest) (h : truthy (getField m "description") = false) :
    ruleDescription m = [] := by
  unfold ruleDescription
  simp [h]

theorem ruleEntryPoint_congr (m1 m2 : Manifest) (files : List String)
    (h : getField m1 "entry_point" = getField m2 "entry_point") :
    ruleEntryPoint m1 files = ruleEntryPoint m2 files := by
  unfold ruleEntryPoint fieldStr
  rw [h]

theorem ruleScripts_congr (m1 m2 : Manifest) (files : List String)
    (h : getField m1 "frontend_scripts" = getField m2 "frontend_scripts") :
    ruleScripts m1 files = ruleScripts m2 files := by
  unfold ruleScripts
  rw [h]

theorem ruleTags_congr (m1 m2 : Manifest)
    (h : getField m1 "tags" = getField m2 "tags") : ruleTags m1 = ruleTags m2 := by
  unfold ruleTags
  rw [h]

theorem warnHooks_congr (m1 m2 : Manifest)
    (h : getField m1 "hooks" = getField m2 "hooks") : warnHooks m1 = warnHooks m2 := by
  unfold warnHooks
  rw [h]

theorem warnTags_congr (m1 m2 : Manifest)
    (h : getField m1 "tags" = getField m2 "tags") : warnTags m1 = warnTags m2 := by
  unfold warnTags
  rw [h]

theorem validatePlugin_erase_falsy (pid : String) (m : Manifest) (files : List String)
    (f : String) (hmem : f ∈ requiredFields) (hf : truthy (getField m f) = false) :
    validatePlugin pid (.ok (eraseField m f)) files = validatePlugin pid (.ok m) files := by
  rw [validatePlugin_ok_eq, validatePlugin_ok_eq]
  have herased : truthy (getField (eraseField m f) f) = false := by
    rw [getField_erase_self]
    rfl
  fin_cases hmem
  · rw [ruleRequired_erase m _ hf, ruleId_nil _ pid herased, ruleId_nil _ pid hf,
      ruleVersion_congr _ m (getField_erase_ne m _ _ (by decide)),
      ruleCategory_congr _ m (getField_erase_ne m _ _ (by decide)),
      ruleDescription_congr _ m (getField_erase_ne m _ _ (by decide)),
      ruleEntryPoint_congr _ m files (getField_erase_ne m _ _ (by decide)),
      ruleScripts_congr _ m files (getField_erase_ne m _ _ (by decide)),
      ruleTags_congr _ m (getField_erase_ne m _ _ (by decide)),
      warnHooks_congr _ m (getField_erase_ne m _ _ (by decide)),
      warnTags_congr _ m (getField_erase_ne m _ _ (by decide))]
  · rw [ruleRequired_erase m _ hf,
      ruleId_congr _ m pid (getField_erase_ne m _ _ (by decide)),
      ruleVersion_congr _ m (getField_erase_ne m _ _ (by decide)),
      ruleCategory_congr _ m (getField_erase_ne m _ _ (by decide)),
      ruleDescription_congr _ m (getField_erase_ne m _ _ (by decide)),
      ruleEntryPoint_congr _ m files (getField_erase_ne m _ _ (by decide)),
      ruleScripts_congr _ m files (getField_erase_ne m _ _ (by decide)),
      ruleTags_congr _ m (getField_erase_ne m _ _ (by decide)),
      warnHooks_congr _ m (getField_erase_ne m _ _ (by decide)),
      warnTags_congr _ m (getField_erase_ne m _ _ (by decide))]
  · rw [ruleRequired_erase m _ hf, ruleVersion_nil _ herased, ruleVersion_nil _ hf,
      ruleId_congr _ m pid (getField_erase_ne m _ _ (by decide)),
      ruleCategory_congr _ m (getField_erase_ne m _ _ (by decide)),
      ruleDescription_congr _ m (getField_erase_ne m _ _ (by decide)),
      ruleEntryPoint_congr _ m files (getField_erase_ne m _ _ (by decide)),
      ruleScripts_congr _ m files (getField_erase_ne m _ _ (by decide)),
      ruleTags_congr _ m (getField_erase_ne m _ _ (by decide)),
      warnHooks_congr _ m (getField_erase_ne m _ _ (by decide)),
      warnTags_congr _ m (getField_erase_ne m _ _ (by decide))]
  · rw [ruleRequired_erase m _ hf,
      ruleId_congr _ m pid (getField_erase_ne m _ _ (by decide)),
      ruleVersion_congr _ m (getField_erase_ne m _ _ (by decide)),
      ruleCategory_congr _ m (getField_erase_ne m _ _ (by decide)),
      ruleDescription_congr _ m (getField_erase_ne m _ _ (by decide)),
      ruleEntryPoint_congr _ m files (getField_erase_ne m _ _ (by decide)),
      ruleScripts_congr _ m files (getField_erase_ne m _ _ (by decide)),
      ruleTags_congr _ m (getField_erase_ne m _ _ (by decide)),
      warnHooks_congr _ m (getField_erase_ne m _ _ (by decide)),
      warnTags_congr _ m (getField_erase_ne m _ _ (by decide))]
  · rw [ruleRequired_erase m _ hf, ruleDescription_nil _ herased, ruleDescription_nil _ hf,
      ruleId_congr _ m pid (getField_erase_ne m _ _ (by decide)),
      ruleVersion_congr _ m (getField_erase_ne m _ _ (by decide)),
      ruleCategory_congr _ m (getField_erase_ne m _ _ (by decide)),
      ruleEntryPoint_congr _ m files (getField_erase_ne m _ _ (by decide)),
      ruleScripts_congr _ m files (getField_erase_ne m _ _ (by decide)),
      ruleTags_congr _ m (getField_erase_ne m _ _ (by decide)),
      warnHooks_congr _ m (getField_erase_ne m _ _ (by decide)),
      warnTags_congr _ m (getField_erase_ne m _ _ (by decide))]

end ValidateScript

namespace ValidateScript

theorem missingField_mem_iff (pid : String) (m : Manifest) (files : List String)
    (f : String) (hmem : f ∈ requiredFields) :
    (VErr.missingField f ∈ (validatePlugin pid (.ok m) files).1) ↔
      truthy (getField m f) = false := by
  rw [validatePlugin_ok_eq]
  simp only [List.mem_append]
  constructor
  · rintro (((((((h | h) | h) | h) | h) | h) | h) | h)
    · exact ((mem_ruleRequired_iff m f).1 h).2
    · rcases mem_ruleId_cases m pid _ h with ⟨s, hs⟩ | hs | hs <;> simp at hs
    · have := ((mem_ruleVersion_iff m _).1 h).1
      simp at this
    · rcases mem_ruleCategory_cases m _ h with ⟨s, hs⟩
      simp at hs
    · rcases mem_ruleDescription_cases m _ h with hs | hs <;> simp at hs
    · rcases mem_ruleEntryPoint_cases m files _ h with ⟨s, hs⟩
      simp at hs
    · rcases mem_ruleScripts_cases m files _ h with ⟨s, hs⟩
      simp at hs
    · have := mem_ruleTags_cases m _ h
      simp at this
  · intro ht
    exact Or.inl (Or.inl (Or.inl (Or.inl (Or.inl (Or.inl (Or.inl
      ((mem_ruleRequired_iff m f).2 ⟨hmem, ht⟩)))))))

theorem invalidVersion_mem_iff (pid : String) (m : Manifest) (files : List String) :
    (VErr.invalidVersion ∈ (validatePlugin pid (.ok m) files).1) ↔
      (truthy (getField m "version") = true ∧
        semverFullTest (fieldStr m "version") = false) := by
  rw [validatePlugin_ok_eq]
  simp only [List.mem_append]
  constructor
  · rintro (((((((h | h) | h) | h) | h) | h) | h) | h)
    · rcases mem_ruleRequired_cases m _ h with ⟨g, hg⟩
      simp at hg
    · rcases mem_ruleId_cases m pid _ h with ⟨s, hs⟩ | hs | hs <;> simp at hs
    · have := ((mem_ruleVersion_iff m _).1 h).2
      simp only [Bool.and_eq_true, Bool.not_eq_true'] at this
      exact this
    · rcases mem_ruleCategory_cases m _ h with ⟨s, hs⟩
      simp at hs
    · rcases mem_ruleDescription_cases m _ h with hs | hs <;> simp at hs
    · rcases mem_ruleEntryPoint_cases m files _ h with ⟨s, hs⟩
      simp at hs
    · rcases mem_ruleScripts_cases m files _ h with ⟨s, hs⟩
      simp at hs
    · have := mem_ruleTags_cases m _ h
      simp at this
  · rintro ⟨h1, h2⟩
    refine Or.inl (Or.inl (Or.inl (Or.inl (Or.inl (Or.inr ?_)))))
    exact (mem_ruleVersion_iff m _).2 ⟨rfl, by simp [h1, h2]⟩

end ValidateScript

namespace ValidateScriptB

theorem missingField_mem_iffB (strict : Bool) (pid : String) (m : Manifest)
    (files : List String) (f : String) (hmem : f ∈ requiredFields) :
    (VErr.missingField f ∈ (validatePlugin strict pid (.ok m) files).1) ↔
      truthy (getField m f) = false := by
  rw [validatePlugin_ok_eqB]
  simp only [List.mem_append]
  constructor
  · rintro ((((((h | h) | h) | h) | h) | h) | h)
    · exact ((mem_ruleRequired_iffB m f).1 h).2
    · rcases mem_ruleId_casesB m pid _ h with ⟨s, hs⟩ | hs | hs <;> simp at hs
    · have := mem_ruleVersion_cases m _ h
      simp at this
    · rcases mem_ruleCategory_casesB m _ h with ⟨s, hs⟩
      simp at hs
    · rcases mem_ruleDescription_casesB m _ h with hs | hs <;> simp at hs
    · rcases mem_ruleEntryPoint_casesB m files _ h with ⟨s, hs⟩
      simp at hs
    · rcases mem_ruleTags_casesB m _ h with hs | hs <;> simp at hs
  · intro ht
    exact Or.inl (Or.inl (Or.inl (Or.inl (Or.inl (Or.inl
      ((mem_ruleRequired_iffB m f).2 ⟨hmem, ht⟩))))))

theorem errors_strict_independent (s1 s2 : Bool) (pid : String) (read : ReadResult)
    (files : List String) :
    (validatePlugin s1 pid read files).1 = (validatePlugin s2 pid read files).1 := by
  cases read with
  | missing => rfl
  | badJson msg => rfl
  | ok m =>
    rw [validatePlugin_ok_eqB, validatePlugin_ok_eqB]

end ValidateScriptB

namespace BuildIndexScript

theorem missingField_mem_iffBI (pid : String) (m : Manifest) (f : String)
    (hmem : f ∈ requiredFields) :
    (VErr.missingField f ∈ validateManifest m pid) ↔
      truthy (getField m f) = false := by
  rw [validateManifest_eq]
  simp only [List.mem_append]
  constructor
  · rintro ((((h | h) | h) | h) | h)
    · exact ((mem_ruleRequired_iffBI m f).1 h).2
    · rcases mem_ruleIdMatch_cases m pid _ h with ⟨s, hs⟩
      simp at hs
    · rcases mem_ruleCategory_casesBI m _ h with ⟨s, hs⟩
      simp at hs
    · have := ((mem_ruleVersion_iffBI m _).1 h).1
      simp at this
    · rcases mem_ruleIdFormat_cases m _ h with ⟨s, hs⟩
      simp at hs
  · intro ht
    exact Or.inl (Or.inl (Or.inl (Or.inl ((mem_ruleRequired_iffBI m f).2 ⟨hmem, ht⟩))))

theorem invalidVersion_mem_iffBI (pid : String) (m : Manifest) :
    (VErr.invalidVersion (fieldStr m "version") ∈ validateManifest m pid) ↔
      (truthy (getField m "version") = true ∧
        semverPrefixTest (fieldStr m "version") = false) := by
  rw [validateManifest_eq]
  simp only [List.mem_append]
  constructor
  · rintro ((((h | h) | h) | h) | h)
    · rcases mem_ruleRequired_casesBI m _ h with ⟨g, hg⟩
      simp at hg
    · rcases mem_ruleIdMatch_cases m pid _ h with ⟨s, hs⟩
      simp at hs
    · rcases mem_ruleCategory_casesBI m _ h with ⟨s, hs⟩
      simp at hs
    · have := ((mem_ruleVersion_iffBI m _).1 h).2
      simp only [Bool.and_eq_true, Bool.not_eq_true'] at this
      exact this
    · rcases mem_ruleIdFormat_cases m _ h with ⟨s, hs⟩
      simp at hs
  · rintro ⟨h1, h2⟩
    refine Or.inl (Or.inr ?_)
    exact (mem_ruleVersion_iffBI m _).2 ⟨rfl, by simp [h1, h2]⟩

theorem jsOr_of_truthy (v : Option JVal) (d : JVal) (h : truthy v = true) :
    jsOr v d = v.getD .jnull := by
  cases v with
  | none => simp [truthy] at h
  | some x => simp [jsOr, truthy] at h ⊢; simp [h]

theorem jsOr_of_falsy (v : Option JVal) (d : JVal) (h : truthy v = false) :
    jsOr v d = d := by
  cases v with
  | none => rfl
  | some x => simp [jsOr, truthy] at h ⊢; simp [h]

end BuildIndexScript

theorem insertionSort_of_all_rel {α : Type} (r : α → α → Prop) [DecidableRel r] :
    ∀ l : List α, (∀ a ∈ l, ∀ b ∈ l, r a b) → List.insertionSort r l = l := by
  intro l
  induction l with
  | nil => simp
  | cons x xs ih =>
    intro h
    rw [List.insertionSort,
      ih (fun a ha b hb => h a (List.mem_cons_of_mem x ha) b (List.mem_cons_of_mem x hb))]
    cases xs with
    | nil => rfl
    | cons y ys =>
      rw [List.orderedInsert, if_pos (h x (List.mem_cons_self x _) y (by simp))]

theorem localeLe_refl (s : String) : localeLe s s := by
  unfold localeLe localeCmp
  rw [cmpList_refl]
  simp [cmpList_refl]

/-- C1, counterexample: under scripts/validate-plugins.js, a run over a
directory whose plugin has a validation error (a missing manifest) exits
with status 0 when the strict flag is absent, contradicting the claim
that any validation error makes the exit status non-zero. -/
theorem c1_nonstrict_exit_zero_cex :
    ValidateScript.anyPluginErrors [ghostDir] = true ∧
      ValidateScript.mainExit false [ghostDir] = 0 := by
  decide

/-- C1, amended: the exit status is 0 when every considered plugin has
zero validation errors; when some plugin has errors, the part_001 entry
point exits 1 unconditionally, while scripts/validate-plugins.js exits 1
only when the strict flag is set and 0 otherwise. -/
theorem c1_exit_status_characterization :
    (∀ (strict : Bool) (dirs : List PluginDir),
      ValidateScript.mainExit strict dirs =
        (if ValidateScript.anyPluginErrors dirs && strict then 1 else 0)) ∧
    (∀ (strict : Bool) (dirs : List PluginDir),
      ValidateScriptB.mainExit strict dirs =
        (if ValidateScriptB.anyPluginErrors strict dirs then 1 else 0)) :=
  ⟨ValidateScript.mainExit_eq, ValidateScriptB.mainExit_eqB⟩

/-- C2, counterexample: a plugin with zero errors and one warning (an
unknown hook) leaves the strict run of scripts/validate-plugins.js at
exit status 0, and a warnings-only strict run of the part_001 variant
also exits 0, contradicting the claim that strict mode exits non-zero on
any warning. -/
theorem c2_strict_warning_exit_zero_cex :
    ValidateScript.anyPluginErrors [warnDir] = false ∧
      ValidateScript.anyPluginWarnings [warnDir] = true ∧
      ValidateScript.mainExit true [warnDir] = 0 ∧
      (ValidateScriptB.validatePlugin true "my-plugin" (.ok fullManifestB) ["main.go"]).1 = [] ∧
      (ValidateScriptB.validatePlugin true "my-plugin" (.ok fullManifestB) ["main.go"]).2 ≠ [] ∧
      ValidateScriptB.mainExit true [fullDirB] = 0 := by
  decide

/-- C2, amended: warnings never influence the exit status; the strict
run of scripts/validate-plugins.js exits 0 exactly when no considered
plugin has an error, and the exit status of the part_001 variant is the
same with and without strict mode. -/
theorem c2_strict_mode_exit_characterization :
    (∀ dirs : List PluginDir,
      (ValidateScript.mainExit true dirs = 0 ↔
        ValidateScript.anyPluginErrors dirs = false)) ∧
    (∀ dirs : List PluginDir,
      ValidateScriptB.mainExit true dirs = ValidateScriptB.mainExit false dirs) := by
  constructor
  · intro dirs
    rw [ValidateScript.mainExit_eq]
    by_cases h : ValidateScript.anyPluginErrors dirs = true
    · simp [h]
    · simp only [Bool.not_eq_true] at h
      simp [h]
  · intro dirs
    rw [ValidateScriptB.mainExit_eqB, ValidateScriptB.mainExit_eqB]
    have h : ValidateScriptB.anyPluginErrors true dirs =
        ValidateScriptB.anyPluginErrors false dirs := by
      unfold ValidateScriptB.anyPluginErrors
      congr 1
      funext d
      rw [ValidateScriptB.errors_strict_independent true false d.name d.read d.files]
    rw [h]

/-- C3: in the index builder, a processed manifest with zero validation
errors contributes exactly one entry to the scan and one with errors
contributes none (warnings do not exist in this validator and nothing
else excludes an entry); the scan is compositional over the directory
list and the final sorted index is a permutation of the scanned
entries. -/
theorem c3_index_entry_invariant :
    (∀ d1 d2 : List PluginDir,
      BuildIndexScript.scanPlugins (d1 ++ d2) =
        ((BuildIndexScript.scanPlugins d1).1 ++ (BuildIndexScript.scanPlugins d2).1,
          (BuildIndexScript.scanPlugins d1).2 ++ (BuildIndexScript.scanPlugins d2).2)) ∧
    (∀ (d : PluginDir) (m : Manifest), d.isDir = true → startsDot d.name = false →
      d.read = .ok m →
      (BuildIndexScript.scanPlugins [d]).1 =
        (if BuildIndexScript.validateManifest m d.name = [] then
          [BuildIndexScript.mkEntry d m] else [])) ∧
    (∀ dirs : List PluginDir,
      ((BuildIndexScript.buildIndexDoc dirs).plugins).Perm
        (BuildIndexScript.scanPlugins dirs).1) := by
  refine ⟨?_, ?_, ?_⟩
  · intro d1 d2
    simp [BuildIndexScript.scanPlugins_eq, List.filterMap_append]
  · intro d m hdir hdot hread
    by_cases he : BuildIndexScript.validateManifest m d.name = []
    · simp [BuildIndexScript.scanPlugins_eq, BuildIndexScript.entryOf, hdir, hdot, hread, he]
    · have hlen : 0 < (BuildIndexScript.validateManifest m d.name).length :=
        List.length_pos.2 he
      simp [BuildIndexScript.scanPlugins_eq, BuildIndexScript.entryOf, hdir, hdot, hread,
        he, hlen]
  · intro dirs
    exact List.perm_insertionSort _ _

/-- C3 witness: the invariant applied to the concrete alpha plugin
directory, whose manifest validates cleanly. -/
theorem c3_index_entry_invariant_witness :
    (BuildIndexScript.scanPlugins [alphaDir]).1 =
      (if BuildIndexScript.validateManifest alphaManifest "alpha-plugin" = [] then
        [BuildIndexScript.mkEntry alphaDir alphaManifest] else []) :=
  c3_index_entry_invariant.2.1 alphaDir alphaManifest rfl rfl rfl

/-- C4, counterexample: in the index builder, a directory with no
manifest file produces no outcome record at all — neither an index entry
nor an error record carrying a synthetic MissingManifest error — and the
builder exit status stays 0, contradicting the claim that every Reader
failure yields exactly one outcome record with one synthetic error. -/
theorem c4_builder_reader_failure_cex :
    BuildIndexScript.scanPlugins [ghostDir] = ([], []) ∧
      BuildIndexScript.exitCode [ghostDir] = 0 :=
  ⟨rfl, rfl⟩

/-- C4, amended: in both validation entry points a Reader failure yields
exactly one outcome, a single synthetic error with no warnings, and the
validation rules are bypassed (the result does not depend on the
filesystem); in the index builder such a directory is skipped entirely,
contributing no entry and no error record. -/
theorem c4_reader_failure_outcomes :
    (∀ (pid : String) (files : List String),
      ValidateScript.validatePlugin pid .missing files = ([.missingManifest], [])) ∧
    (∀ (pid : String) (files : List String) (msg : String),
      ValidateScript.validatePlugin pid (.badJson msg) files = ([.invalidJson msg], [])) ∧
    (∀ (strict : Bool) (pid : String) (files : List String),
      ValidateScriptB.validatePlugin strict pid .missing files = ([.missingManifest], [])) ∧
    (∀ (strict : Bool) (pid : String) (files : List String) (msg : String),
      ValidateScriptB.validatePlugin strict pid (.badJson msg) files =
        ([.invalidJson msg], [])) ∧
    (∀ d : PluginDir, d.read = .missing → BuildIndexScript.scanPlugins [d] = ([], [])) ∧
    (∀ (d : PluginDir) (msg : String), d.read = .badJson msg →
      BuildIndexScript.scanPlugins [d] = ([], [])) := by
  refine ⟨fun _ _ => rfl, fun _ _ _ => rfl, fun _ _ _ => rfl, fun _ _ _ _ => rfl, ?_, ?_⟩
  · intro d hd
    simp [BuildIndexScript.scanPlugins_eq, BuildIndexScript.entryOf,
      BuildIndexScript.errRecOf, hd]
  · intro d msg hd
    simp [BuildIndexScript.scanPlugins_eq, BuildIndexScript.entryOf,
      BuildIndexScript.errRecOf, hd]

/-- C4 witness: the skip behaviour of the builder applied to the
concrete manifest-less directory. -/
theorem c4_reader_failure_outcomes_witness :
    BuildIndexScript.scanPlugins [ghostDir] = ([], []) :=
  c4_reader_failure_outcomes.2.2.2.2.1 ghostDir rfl

/-- C5, counterexample: the version string 1.0.0x does not match the
anchored MAJOR.MINOR.PATCH pattern with optional prerelease suffix, yet
the index builder validator reports no error for a manifest carrying it,
because its regex only checks a prefix of the string. -/
theorem c5_version_suffix_cex :
    getField junkVersionManifest "version" = some (.jstr "1.0.0x") ∧
      semverFullTest "1.0.0x" = false ∧
      BuildIndexScript.validateManifest junkVersionManifest "plug" = [] := by
  refine ⟨rfl, by decide, by decide⟩

/-- C5, amended: the scripts/validate-plugins.js validator reports
InvalidVersion exactly when a truthy version fails the anchored pattern
with optional prerelease suffix, while the index builder validator
reports it exactly when a truthy version fails to begin with
MAJOR.MINOR.PATCH (trailing junk accepted); the strings 1.0, 1.0.0 and
1.0.0-beta.1 behave as the claim states under both patterns. -/
theorem c5_version_rule_characterization :
    (∀ (pid : String) (m : Manifest) (files : List String),
      (ValidateScript.VErr.invalidVersion ∈
          (ValidateScript.validatePlugin pid (.ok m) files).1 ↔
        (truthy (getField m "version") = true ∧
          semverFullTest (fieldStr m "version") = false))) ∧
    (∀ (pid : String) (m : Manifest),
      (BuildIndexScript.VErr.invalidVersion (fieldStr m "version") ∈
          BuildIndexScript.validateManifest m pid ↔
        (truthy (getField m "version") = true ∧
          semverPrefixTest (fieldStr m "version") = false))) ∧
    semverFullTest "1.0" = false ∧ semverFullTest "1.0.0" = true ∧
      semverFullTest "1.0.0-beta.1" = true ∧ semverPrefixTest "1.0" = false ∧
      semverPrefixTest "1.0.0" = true ∧ semverPrefixTest "1.0.0-beta.1" = true := by
  refine ⟨ValidateScript.invalidVersion_mem_iff, BuildIndexScript.invalidVersion_mem_iffBI,
    ?_, ?_, ?_, ?_, ?_, ?_⟩ <;> decide

/-- C6: the assembled index orders entries by the localeCompare model on
the name (case-insensitive primary key, lowercase-first tiebreak): the
sort permutes its input, produces a list sorted under that comparator,
leaves a list of entries with identical names unchanged (stability), and
on the concrete pair of valid plugins named Beta and alpha both
enumeration orders produce the sequence alpha then Beta. -/
theorem c6_sort_by_name :
    (∀ entries : List BuildIndexScript.IndexEntry,
      (BuildIndexScript.sortedPlugins entries).Perm entries) ∧
    (∀ entries : List BuildIndexScript.IndexEntry,
      List.Sorted BuildIndexScript.entryLe (BuildIndexScript.sortedPlugins entries)) ∧
    (∀ entries : List BuildIndexScript.IndexEntry,
      (∀ a ∈ entries, ∀ b ∈ entries,
        BuildIndexScript.entryNameStr a = BuildIndexScript.entryNameStr b) →
      BuildIndexScript.sortedPlugins entries = entries) ∧
    (BuildIndexScript.buildIndexDoc [betaDir, alphaDir]).plugins.map
        BuildIndexScript.IndexEntry.name = [.jstr "alpha", .jstr "Beta"] ∧
    (BuildIndexScript.buildIndexDoc [alphaDir, betaDir]).plugins.map
        BuildIndexScript.IndexEntry.name = [.jstr "alpha", .jstr "Beta"] := by
  refine ⟨?_, ?_, ?_, rfl, rfl⟩
  · intro entries
    exact List.perm_insertionSort _ _
  · intro entries
    haveI : IsTotal BuildIndexScript.IndexEntry BuildIndexScript.entryLe :=
      ⟨fun a b => localeLe_total _ _⟩
    haveI : IsTrans BuildIndexScript.IndexEntry BuildIndexScript.entryLe :=
      ⟨fun a b c => localeLe_trans _ _ _⟩
    exact List.sorted_insertionSort _ _
  · intro entries h
    refine insertionSort_of_all_rel _ entries ?_
    intro a ha b hb
    show localeLe (BuildIndexScript.entryNameStr a) (BuildIndexScript.entryNameStr b)
    rw [h a ha b hb]
    exact localeLe_refl _

/-- C6 witness: two distinct entries sharing the name Same are left in
their enumeration order by the sort. -/
theorem c6_sort_by_name_witness :
    BuildIndexScript.sortedPlugins
        [BuildIndexScript.mkEntry sameDirOne sameManifestOne,
          BuildIndexScript.mkEntry sameDirTwo sameManifestTwo] =
      [BuildIndexScript.mkEntry sameDirOne sameManifestOne,
        BuildIndexScript.mkEntry sameDirTwo sameManifestTwo] :=
  c6_sort_by_name.2.2.1 _ (by decide)

/-- C7, counterexample: for a valid manifest with min_panel_version
absent, the index entry carries the string 2.0.0 rather than null or an
empty sequence, and a present-but-false settings_schema is replaced by
null rather than copied verbatim. -/
theorem c7_passthrough_defaults_cex :
    (BuildIndexScript.scanPlugins [defaultsDir]).1.map
        (fun e => e.min_panel_version) = [.jstr "2.0.0"] ∧
      getField defaultsManifest "min_panel_version" = none ∧
      (.jstr "2.0.0" : JVal) ≠ .jnull ∧ (.jstr "2.0.0" : JVal) ≠ .jarr [] ∧
      getField defaultsManifest "settings_schema" = some (.jbool false) ∧
      (BuildIndexScript.scanPlugins [defaultsDir]).1.map
        (fun e => e.settings_schema) = [.jnull] := by
  refine ⟨rfl, rfl, fun h => JVal.noConfusion h, fun h => JVal.noConfusion h, rfl, rfl⟩

/-- C7, amended: for every valid manifest the assembler copies a truthy
repository, homepage, min_panel_version, nav_items, dashboard_cards or
settings_schema value verbatim into the index entry; when falsy or
absent, repository falls back to homepage-or-null, homepage and
settings_schema default to null, nav_items and dashboard_cards to the
empty sequence, and min_panel_version to the string 2.0.0. -/
theorem c7_passthrough_field_defaults :
    ∀ (d : PluginDir) (m : Manifest), d.isDir = true → startsDot d.name = false →
      d.read = .ok m → BuildIndexScript.validateManifest m d.name = [] →
      ∃ e, (BuildIndexScript.scanPlugins [d]).1 = [e] ∧
        (truthy (getField m "repository") = true →
          e.repository = (getField m "repository").getD .jnull) ∧
        (truthy (getField m "repository") = false →
          truthy (getField m "homepage") = true →
          e.repository = (getField m "homepage").getD .jnull) ∧
        (truthy (getField m "repository") = false →
          truthy (getField m "homepage") = false → e.repository = .jnull) ∧
        (truthy (getField m "homepage") = true →
          e.homepage = (getField m "homepage").getD .jnull) ∧
        (truthy (getField m "homepage") = false → e.homepage = .jnull) ∧
        (truthy (getField m "min_panel_version") = true →
          e.min_panel_version = (getField m "min_panel_version").getD .jnull) ∧
        (truthy (getField m "min_panel_version") = false →
          e.min_panel_version = .jstr "2.0.0") ∧
        (truthy (getField m "nav_items") = true →
          e.nav_items = (getField m "nav_items").getD .jnull) ∧
        (truthy (getField m "nav_items") = false → e.nav_items = .jarr []) ∧
        (truthy (getField m "dashboard_cards") = true →
          e.dashboard_cards = (getField m "dashboard_cards").getD .jnull) ∧
        (truthy (getField m "dashboard_cards") = false → e.dashboard_cards = .jarr []) ∧
        (truthy (getField m "settings_schema") = true →
          e.settings_schema = (getField m "settings_schema").getD .jnull) ∧
        (truthy (getField m "settings_schema") = false → e.settings_schema = .jnull) := by
  intro d m hdir hdot hread hval
  refine ⟨BuildIndexScript.mkEntry d m, ?_, ?_, ?_, ?_, ?_, ?_, ?_, ?_, ?_, ?_, ?_, ?_,
    ?_, ?_⟩
  · simp [BuildIndexScript.scanPlugins_eq, BuildIndexScript.entryOf, hdir, hdot, hread, hval]
  · intro h1
    simp [BuildIndexScript.mkEntry, BuildIndexScript.jsOr_of_truthy _ _ h1]
  · intro h1 h2
    simp [BuildIndexScript.mkEntry, BuildIndexScript.jsOr_of_falsy _ _ h1,
      BuildIndexScript.jsOr_of_truthy _ _ h2]
  · intro h1 h2
    simp [BuildIndexScript.mkEntry, BuildIndexScript.jsOr_of_falsy _ _ h1,
      BuildIndexScript.jsOr_of_falsy _ _ h2]
  · intro h1
    simp [BuildIndexScript.mkEntry, BuildIndexScript.jsOr_of_truthy _ _ h1]
  · intro h1
    simp [BuildIndexScript.mkEntry, BuildIndexScript.jsOr_of_falsy _ _ h1]
  · intro h1
    simp [BuildIndexScript.mkEntry, BuildIndexScript.jsOr_of_truthy _ _ h1]
  · intro h1
    simp [BuildIndexScript.mkEntry, BuildIndexScript.jsOr_of_falsy _ _ h1]
  · intro h1
    simp [BuildIndexScript.mkEntry, BuildIndexScript.jsOr_of_truthy _ _ h1]
  · intro h1
    simp [BuildIndexScript.mkEntry, BuildIndexScript.jsOr_of_falsy _ _ h1]
  · intro h1
    simp [BuildIndexScript.mkEntry, BuildIndexScript.jsOr_of_truthy _ _ h1]
  · intro h1
    simp [BuildIndexScript.mkEntry, BuildIndexScript.jsOr_of_falsy _ _ h1]
  · intro h1
    simp [BuildIndexScript.mkEntry, BuildIndexScript.jsOr_of_truthy _ _ h1]
  · intro h1
    simp [BuildIndexScript.mkEntry, BuildIndexScript.jsOr_of_falsy _ _ h1]

/-- C7 witness: the defaulting behaviour applied to the concrete
manifest lacking min_panel_version: the generated entry carries the
string 2.0.0. -/
theorem c7_passthrough_field_defaults_witness :
    (BuildIndexScript.scanPlugins [defaultsDir]).1.map
      (fun e => e.min_panel_version) = [.jstr "2.0.0"] := by
  obtain ⟨e, he, _, _, _, _, _, _, hmpv, _⟩ :=
    c7_passthrough_field_defaults defaultsDir defaultsManifest rfl rfl rfl (by decide)
  rw [he, List.map_singleton, hmpv (by decide)]

/-- C8, counterexample: for a manifest with an invalid category and an
invalid version at once, the index builder validator returns the
category error before the version error, so its insertion order does not
follow the claimed rule order (required fields, id, version, category,
description, entry point, frontend scripts, hooks, tags). -/
theorem c8_builder_rule_order_cex :
    BuildIndexScript.validateManifest orderManifest "plug" =
        [.invalidCategory "badcat", .invalidVersion "1.0"] ∧
      [BuildIndexScript.VErr.invalidCategory "badcat",
          BuildIndexScript.VErr.invalidVersion "1.0"] ≠
        [BuildIndexScript.VErr.invalidVersion "1.0",
          BuildIndexScript.VErr.invalidCategory "badcat"] := by
  decide

/-- C8, amended: every rule contributes independently of the outcome of
the earlier rules; the error list of scripts/validate-plugins.js is the
concatenation of the rule contributions in the claimed order (required
fields, id, version, category, description, entry point, frontend
scripts, tags — hooks contribute only warnings, before the tags
warning), while the index builder validator concatenates its
contributions in the order required fields, id match, category, version,
id format.  The scripts conjunct is restricted to manifests whose path
fields are strings, where the real script cannot throw. -/
theorem c8_rule_order_decomposition :
    (∀ (pid : String) (m : Manifest) (files : List String), pathSafe m = true →
      ValidateScript.validatePlugin pid (.ok m) files =
        (ValidateScript.ruleRequired m ++ ValidateScript.ruleId m pid ++
            ValidateScript.ruleVersion m ++ ValidateScript.ruleCategory m ++
            ValidateScript.ruleDescription m ++ ValidateScript.ruleEntryPoint m files ++
            ValidateScript.ruleScripts m files ++ ValidateScript.ruleTags m,
          ValidateScript.warnHooks m ++ ValidateScript.warnTags m)) ∧
    (∀ (pid : String) (m : Manifest),
      BuildIndexScript.validateManifest m pid =
        BuildIndexScript.ruleRequired m ++ BuildIndexScript.ruleIdMatch m pid ++
          BuildIndexScript.ruleCategory m ++ BuildIndexScript.ruleVersion m ++
          BuildIndexScript.ruleIdFormat m) :=
  ⟨fun pid m files _ => ValidateScript.validatePlugin_ok_eq pid m files,
    fun pid m => BuildIndexScript.validateManifest_eq m pid⟩

/-- C8 witness: the decomposition applied to the concrete manifest with
an invalid category and version. -/
theorem c8_rule_order_decomposition_witness :
    ValidateScript.validatePlugin "plug" (.ok orderManifest) [] =
      (ValidateScript.ruleRequired orderManifest ++
          ValidateScript.ruleId orderManifest "plug" ++
          ValidateScript.ruleVersion orderManifest ++
          ValidateScript.ruleCategory orderManifest ++
          ValidateScript.ruleDescription orderManifest ++
          ValidateScript.ruleEntryPoint orderManifest [] ++
          ValidateScript.ruleScripts orderManifest [] ++
          ValidateScript.ruleTags orderManifest,
        ValidateScript.warnHooks orderManifest ++ ValidateScript.warnTags orderManifest) :=
  c8_rule_order_decomposition.1 "plug" orderManifest [] (by decide)

/-- C9: in all three validators, a required field that is present but
bound to a falsy value (empty string, zero, false or null) produces a
MissingField error exactly as an absent field does: membership of the
MissingField error is equivalent to falsiness of the field lookup, and
for the scripts validator the whole validation result of a manifest with
a falsy required field equals that of the manifest with the field
removed. -/
theorem c9_required_falsiness :
    (∀ (pid : String) (m : Manifest) (files : List String) (f : String),
      f ∈ ValidateScript.requiredFields →
      (ValidateScript.VErr.missingField f ∈
          (ValidateScript.validatePlugin pid (.ok m) files).1 ↔
        truthy (getField m f) = false)) ∧
    (∀ (strict : Bool) (pid : String) (m : Manifest) (files : List String) (f : String),
      f ∈ ValidateScriptB.requiredFields →
      (ValidateScriptB.VErr.missingField f ∈
          (ValidateScriptB.validatePlugin strict pid (.ok m) files).1 ↔
        truthy (getField m f) = false)) ∧
    (∀ (pid : String) (m : Manifest) (f : String),
      f ∈ BuildIndexScript.requiredFields →
      (BuildIndexScript.VErr.missingField f ∈ BuildIndexScript.validateManifest m pid ↔
        truthy (getField m f) = false)) ∧
    (∀ (pid : String) (m : Manifest) (files : List String) (f : String),
      f ∈ ValidateScript.requiredFields → truthy (getField m f) = false →
      ValidateScript.validatePlugin pid (.ok (eraseField m f)) files =
        ValidateScript.validatePlugin pid (.ok m) files) :=
  ⟨ValidateScript.missingField_mem_iff,
    ValidateScriptB.missingField_mem_iffB,
    fun pid m f h => BuildIndexScript.missingField_mem_iffBI pid m f h,
    ValidateScript.validatePlugin_erase_falsy⟩

/-- C9 witness: the falsiness check applied to a concrete manifest whose
id is the empty string: the MissingField id error is reported. -/
theorem c9_required_falsiness_witness :
    ValidateScript.VErr.missingField "id" ∈
      (ValidateScript.validatePlugin "my-plugin" (.ok falsyIdManifest) []).1 :=
  (c9_required_falsiness.1 "my-plugin" falsyIdManifest [] "id" (by decide)).2 (by decide)

/-- C10, counterexample: a tags field that is present and not an array
does not always produce an error — the source guards the tags rule with
JS truthiness, so a manifest whose tags field is the empty string
validates with no error at all, contradicting the tags clause of the
claim. -/
theorem c10_falsy_tags_cex :
    getField falsyTagsManifest "tags" = some (.jstr "") ∧
      isArr (.jstr "") = false ∧
      (ValidateScript.validatePlugin "my-plugin" (.ok falsyTagsManifest) []).1 = [] := by
  refine ⟨rfl, rfl, by decide⟩

/-- C10, amended: when frontend_scripts is present and not an array,
whether truthy or falsy, the scripts validator emits no script error for
any filesystem state (the rule is silently skipped and no existence
check happens); a present non-array tags field produces the tags error
exactly when its value is truthy, so a falsy non-array tags value (the
empty string, zero, false or null) is silently skipped as well. -/
theorem c10_nonarray_fields_characterization :
    (∀ (pid : String) (m : Manifest) (v : JVal),
      getField m "frontend_scripts" = some v → isArr v = false →
      (∀ (files2 : List String) (s : String),
        ValidateScript.VErr.scriptNotFound s ∉
          (ValidateScript.validatePlugin pid (.ok m) files2).1)) ∧
    (∀ (pid : String) (m : Manifest) (files : List String) (w : JVal),
      getField m "tags" = some w → isArr w = false →
      (ValidateScript.VErr.tagsNotArray ∈
          (ValidateScript.validatePlugin pid (.ok m) files).1 ↔ truthyV w = true)) := by
  constructor
  · intro pid m v hfs hav files2 s hmem
    rw [ValidateScript.validatePlugin_ok_eq] at hmem
    simp only [List.mem_append] at hmem
    rcases hmem with (((((((h | h) | h) | h) | h) | h) | h) | h)
    · rcases ValidateScript.mem_ruleRequired_cases m _ h with ⟨g, hg⟩
      simp at hg
    · rcases ValidateScript.mem_ruleId_cases m pid _ h with ⟨t, ht⟩ | ht | ht <;> simp at ht
    · have := ((ValidateScript.mem_ruleVersion_iff m _).1 h).1
      simp at this
    · rcases ValidateScript.mem_ruleCategory_cases m _ h with ⟨t, ht⟩
      simp at ht
    · rcases ValidateScript.mem_ruleDescription_cases m _ h with ht | ht <;> simp at ht
    · rcases ValidateScript.mem_ruleEntryPoint_cases m files2 _ h with ⟨t, ht⟩
      simp at ht
    · rw [ValidateScript.ruleScripts_nil_of_nonarray m files2 v hfs hav] at h
      simp at h
    · have := ValidateScript.mem_ruleTags_cases m _ h
      simp at this
  · intro pid m files w htags haw
    rw [ValidateScript.validatePlugin_ok_eq]
    simp only [List.mem_append]
    constructor
    · rintro (((((((h | h) | h) | h) | h) | h) | h) | h)
      · rcases ValidateScript.mem_ruleRequired_cases m _ h with ⟨g, hg⟩
        simp at hg
      · rcases ValidateScript.mem_ruleId_cases m pid _ h with ⟨t, ht⟩ | ht | ht <;>
          simp at ht
      · have := ((ValidateScript.mem_ruleVersion_iff m _).1 h).1
        simp at this
      · rcases ValidateScript.mem_ruleCategory_cases m _ h with ⟨t, ht⟩
        simp at ht
      · rcases ValidateScript.mem_ruleDescription_cases m _ h with ht | ht <;> simp at ht
      · rcases ValidateScript.mem_ruleEntryPoint_cases m files _ h with ⟨t, ht⟩
        simp at ht
      · rcases ValidateScript.mem_ruleScripts_cases m files _ h with ⟨t, ht⟩
        simp at ht
      · rcases (ValidateScript.mem_ruleTags_iff m).1 h with ⟨u, hu, htu, _⟩
        rw [htags] at hu
        injection hu with hu
        rw [hu]
        exact htu
    · intro htw
      exact Or.inr ((ValidateScript.mem_ruleTags_iff m).2 ⟨w, htags, htw, haw⟩)

/-- C10 witness: on a concrete manifest whose frontend_scripts and tags
are both non-array strings, the script error is absent and the tags
error present. -/
theorem c10_nonarray_fields_witness :
    ValidateScript.VErr.scriptNotFound "assets/script.js" ∉
        (ValidateScript.validatePlugin "my-plugin" (.ok nonArrayManifest) []).1 ∧
      ValidateScript.VErr.tagsNotArray ∈
        (ValidateScript.validatePlugin "my-plugin" (.ok nonArrayManifest) []).1 :=
  ⟨c10_nonarray_fields_characterization.1 "my-plugin" nonArrayManifest (.jstr "script.js")
      rfl rfl [] "assets/script.js",
    (c10_nonarray_fields_characterization.2 "my-plugin" nonArrayManifest [] (.jstr "tagtext")
      rfl rfl).2 (by decide)⟩
